import Mathlib

/-!
Verification of the stateful batch extraction and decoding engine of
stdatalog_core (HSDatalog_v2.py): `get_data_and_timestamps_batch`, its inner
packet loop `__extract_data`, and the frame decoder
`__process_datalog` / `extract_data_and_timestamps`.

Modelling conventions.
Python integers are `ℤ` (byte offsets, counters); machine doubles are exact
rationals `ℚ`, with IEEE NaN modelled by the `none` value of `TS := Option ℚ`
(comparisons against NaN are false, arithmetic with NaN yields NaN).  Raw
files are `List ℕ` of byte values; `f.seek(i); f.read(k)` is `drop`/`take`
(a short read returns fewer bytes, as in Python).  The bit-level numpy
decodings (`struct.unpack` of an 8-byte double, `np.frombuffer` of a data
segment) are abstracted as codec parameters `decode_ts` / `decode_data`;
everything else - packet geometry, counter validation, cursor bookkeeping,
windowing, timestamp repair and interpolation, unit scaling - is translated
directly from the source.  Loops are encoded with explicit fuel so that all
definitions compute.
-/

namespace HSD

/-- A decoded 8-byte double: `none` models IEEE NaN. -/
abbrev TS := Option ℚ

/-- Python or numpy comparison of a possibly-NaN value with a number:
any comparison against NaN is false. -/
def tsGtQ (a : TS) (q : ℚ) : Bool :=
  match a with
  | some x => decide (q < x)
  | none => false

/-- Comparison used for the end-of-window test. -/
def tsGeQ (a : TS) (q : ℚ) : Bool :=
  match a with
  | some x => decide (q ≤ x)
  | none => false

/-- NaN-propagating subtraction of a number from a timestamp. -/
def tsSubQ (a : TS) (q : ℚ) : TS := a.map (fun x => x - q)

/-- NaN-propagating absolute difference of two timestamps. -/
def tsAbsSub (a b : TS) : TS :=
  match a, b with
  | some x, some y => some |x - y|
  | _, _ => none

/-- Character-list comparison used for substring containment. -/
def hasPrefixL : List Char → List Char → Bool
  | [], _ => true
  | _ :: _, [] => false
  | a :: as, b :: bs => a == b && hasPrefixL as bs

/-- The needle occurs at some position of the haystack. -/
def hasSubL (n : List Char) : List Char → Bool
  | [] => hasPrefixL n []
  | b :: bs => hasPrefixL n (b :: bs) || hasSubL n bs

/-- Python substring containment, `needle in s`. -/
def containsSub (needle s : String) : Bool := hasSubL needle.data s.data

/-- Little-endian unsigned 32-bit decode of a 4-byte counter
(struct.unpack of a format string with a less-than sign and capital I). -/
def leU32 (bs : List ℕ) : ℤ :=
  match bs with
  | [b0, b1, b2, b3] => (b0 + 256 * b1 + 65536 * b2 + 16777216 * b3 : ℕ)
  | _ => 0

/-- Slice `l[i : i+k]` of a byte list; Python reads return fewer bytes near
the end of file. -/
def sliceL (l : List ℕ) (i k : ℤ) : List ℕ := (l.drop i.toNat).take k.toNat

/-- Python floor division of integers. -/
def pyFloorDiv (a b : ℤ) : ℤ := Int.fdiv a b

/-- math.ceil of a true quotient of integers. -/
def pyCeilDiv (a b : ℤ) : ℤ := -(Int.fdiv (-a) b)

/-- math.floor of a rational. -/
def ratFloor (q : ℚ) : ℤ := Int.fdiv q.num q.den

/-- Python int() applied to a float: truncation toward zero. -/
def ratTrunc (q : ℚ) : ℤ := Int.tdiv q.num q.den

/-- Component kinds; the source compares `c_type` against
`ComponentTypeEnum` values, modelled as an inductive. -/
inductive CType | sensor | algorithm | actuator | other
deriving Repr, DecidableEq

/-- Result datatype of a decoded / scaled numpy array: either the decoded
buffer datatype is kept, or the array was cast to np.byte or np.float32. -/
inductive OutDType | declared (s : String) | npByte | npFloat32
deriving Repr, DecidableEq

/-- The samples_per_ts descriptor entry: either a plain integer or an
object with an optional val field (dict access with a default of 0),
or absent from the status dictionary altogether. -/
inductive SptsSpec | int (n : ℤ) | obj (val : Option ℤ) | absent
deriving Repr, DecidableEq

/-- Resolved samples_per_ts for the batch front end (line 894-901):
plain int taken as-is, object resolved through val with default 0
(default 1 for actuators), absent treated as the empty object. -/
def resolveSpts (s : SptsSpec) (c : CType) : ℤ :=
  match s with
  | .int n => n
  | .obj v => v.getD (if c = .actuator then 1 else 0)
  | .absent => (if c = .actuator then (1:ℤ) else 0)

/-- Modelled from the spec: TypeConversion.check_type_length, the byte
width of a numeric datatype name (the helper lives outside the embedded
sources; widths follow the standard numpy conventions named in the spec,
including the widening 24-bit path). -/
def check_type_length (s : String) : ℤ :=
  if s = "int8" ∨ s = "uint8" then 1
  else if s = "int16" ∨ s = "uint16" then 2
  else if s = "int24" ∨ s = "int24_t" then 3
  else if s = "int32" ∨ s = "uint32" ∨ s = "float" ∨ s = "float32" then 4
  else if s = "double" ∨ s = "int64" ∨ s = "uint64" then 8
  else 1

/-! ## Unit Scaler (lines 699-725) -/

/-- Line 781: the decoded datatype is forced to int8 whenever the component
name contains the ISPU marker, ignoring the declared data_type. -/
def data_type_string (sensor_name declared : String) : String :=
  if containsSub "_ispu" sensor_name then "int8" else declared

/-- Lines 702 and 704: the reshape width is forced to 64 channels for ISPU
components, ignoring the declared dim. -/
def reshape_width (sensor_name : String) (s_dim : ℤ) : ℤ :=
  if containsSub "_ispu" sensor_name then 64 else s_dim

/-- Wrap an integer into the int8 range, as a numpy unsafe cast does. -/
def int8_wrap (z : ℤ) : ℤ := (z + 128) % 256 - 128

/-- np.multiply with out pointing at an int8 array and casting unsafe:
the product is computed in floating point, truncated toward zero and
wrapped to 8 bits. -/
def int8_mul (v s : ℚ) : ℤ := int8_wrap (ratTrunc (v * s))

/-- Output of the unit scaler: the reshaped rows and the numpy datatype of
the resulting array. -/
structure Scaled where
  values : List (List ℚ)
  dtype : OutDType
deriving Repr, DecidableEq

/-- Sensor branch of the scaler (lines 699-706).  In raw mode the decoded
values are reshaped only, keeping the decoded datatype; otherwise the array
is cast to np.byte for ISPU components (then multiplied in place with
unsafe casting) or to np.float32 (then multiplied by the sensitivity). -/
def sensor_scaled (sensor_name : String) (s_dim : ℤ) (sensitivity : ℚ)
    (declared : String) (raw_flag : Bool) (data : List ℚ) : Scaled :=
  let rows := data.toChunks (reshape_width sensor_name s_dim).toNat
  if raw_flag then
    { values := rows, dtype := .declared (data_type_string sensor_name declared) }
  else if containsSub "_ispu" sensor_name then
    { values := rows.map (fun r => r.map (fun v => ((int8_mul v sensitivity : ℤ) : ℚ))),
      dtype := .npByte }
  else
    { values := rows.map (fun r => r.map (fun v => v * sensitivity)), dtype := .npFloat32 }

/-- Algorithm (FFT) branch of the scaler (lines 707-712): the reshape to
fft_length columns casts to np.float32 even in raw mode; scaling multiplies
by the sensitivity. -/
def algorithm_scaled (fft_length : ℤ) (sensitivity : ℚ) (raw_flag : Bool)
    (data : List ℚ) : Scaled :=
  let rows := data.toChunks fft_length.toNat
  if raw_flag then { values := rows, dtype := .npFloat32 }
  else { values := rows.map (fun r => r.map (fun v => v * sensitivity)), dtype := .npFloat32 }

/-- Per-channel scale factor selection by telemetry-name convention
(lines 721-725): a channel whose name contains the letter i is scaled by
the current scaler, else one containing the letter v by the voltage
scaler, else left unscaled. -/
def telemetry_scale (cur vol : ℚ) (name : String) (v : ℚ) : ℚ :=
  if containsSub "i" name then v * cur
  else if containsSub "v" name then v * vol
  else v

/-- Actuator branch of the scaler (lines 713-725): the reshape to one
column per active telemetry casts to np.float32 even in raw mode; for fast
telemetry in scaled mode each column is multiplied by its per-channel
factor.  `tele` is the ordered list of active telemetry names (the source
derives it from the status dictionary in
__get_active_mc_telemetries_names). -/
def actuator_scaled (tele : List String) (cur vol : ℚ) (is_fast raw_flag : Bool)
    (data : List ℚ) : Scaled :=
  let rows := data.toChunks tele.length
  if is_fast && !raw_flag then
    { values := rows.map (fun r => (r.zip tele).map (fun p => telemetry_scale cur vol p.2 p.1)),
      dtype := .npFloat32 }
  else { values := rows, dtype := .npFloat32 }

/-! ## Frame Decoder (lines 600-810) -/

/-- One decoded frame: the decoded data segment values and the decoded
8-byte frame-end timestamp (NaN as none). -/
structure Frame where
  data : List ℚ
  ts : TS
deriving Repr, DecidableEq

/-- Lines 654-669: split the rounded buffer into frames; each frame is the
data segment decoded at the descriptor datatype followed by the 8-byte
timestamp. -/
def decode_frames (decode_ts : List ℕ → TS) (decode_data : String → List ℕ → List ℚ)
    (dts : String) (dfs tbs : ℤ) (num_frames : ℕ) (rnd : List ℕ) : List Frame :=
  (List.range num_frames).map (fun ii : ℕ =>
    { data := decode_data dts (sliceL rnd ((ii : ℤ) * (dfs + tbs)) dfs),
      ts := decode_ts (sliceL rnd ((ii : ℤ) * (dfs + tbs) + dfs) tbs) })

/-- Line 674: the timestamp-consistency condition.  The delta is taken
against the previously stored (possibly already repaired) timestamp; a NaN
on either side makes the frame bad. -/
def bad_delta (fp : ℚ) (prev cur : TS) : Bool :=
  match prev, cur with
  | some p, some t => decide (|t - p| < 1/10 * fp) || decide (|t - p| > 10 * fp)
  | _, _ => true

/-- Lines 675-676: a bad frame has its data zeroed and its timestamp
replaced by the previous timestamp plus the frame period (NaN propagates). -/
def repair_step (fp : ℚ) (prev : TS) (f : Frame) : Frame :=
  if bad_delta fp prev f.ts then
    { data := f.data.map (fun _ => 0), ts := prev.map (fun x => x + fp) }
  else f

/-- Sequential repair pass carrying the previous stored timestamp. -/
def repair_go (fp : ℚ) : TS → List Frame → List Frame
  | _, [] => []
  | prev, f :: rest =>
    let f2 := repair_step fp prev f
    f2 :: repair_go fp f2.ts rest

/-- Lines 671-677: the repair only fires for frame indices above 0 and only
when checking is enabled; with checking disabled every frame is unchanged. -/
def repair_frames (check : Bool) (fp : ℚ) : List Frame → List Frame
  | [] => []
  | f :: rest => if check then f :: repair_go fp f.ts rest else f :: rest

/-- np.linspace with endpoint False: num points from a with step
(b - a) / num. -/
def linspaceQ (a b : ℚ) (num : ℕ) : List ℚ :=
  (List.range num).map (fun i : ℕ => a + (i : ℚ) * ((b - a) / num))

/-- linspace on possibly-NaN endpoints: a NaN endpoint yields NaN points. -/
def linspaceTS (a b : TS) (num : ℕ) : List TS :=
  match a, b with
  | some x, some y => (linspaceQ x y num).map some
  | _, _ => List.replicate num none

/-- Lines 753-757: per-frame interpolation interval.  When the frame period
is positive and the observed gap exceeds the period plus a third of it, the
period-wide interval ending at the later timestamp is used; otherwise the
raw interval between the two consecutive frame timestamps. -/
def frame_interval_times (fp : ℚ) (N : ℕ) (t0 t1 : TS) : List TS :=
  if decide (0 < fp) && tsGtQ (tsAbsSub t1 t0) (fp + fp * (33/100)) then
    linspaceTS (tsSubQ t1 fp) t1 N
  else linspaceTS t0 t1 N

/-- Lines 748-757: the per-sample times of all frames, one block of
samples_per_ts interpolated points per consecutive pair of the (prepended)
frame-timestamp sequence. -/
def samples_times_interp (fp : ℚ) (N : ℕ) (tss : List TS) : List TS :=
  ((tss.zip tss.tail).map (fun p => frame_interval_times fp N p.1 p.2)).flatten

/-- Lines 765-767: drop every sample whose computed time equals the
sentinel value -1 (a NaN time differs from -1, so it is kept). -/
def sentinel_filter (rows : List (List ℚ)) (times : List TS) :
    List (List ℚ) × List TS :=
  let z := (rows.zip times).filter (fun p => decide (p.2 ≠ some (-1)))
  (z.map Prod.fst, z.map Prod.snd)

/-- The extraction cursor: the mutable resume state the engine keeps in the
component status dictionary.  `none` models an absent dictionary key (the
source distinguishes absence from 0 in several places); `ioffset` is an
optionally absent, possibly NaN carried time origin. -/
structure CompStatus where
  last_index : Option ℤ := none
  missing_bytes : Option ℤ := none
  saved_bytes : Option ℤ := none
  is_same_dps : Option Bool := none
  is_first_chunk : Option Bool := none
  prev_data_byte_counter : Option ℤ := none
  ioffset : Option TS := none
deriving Repr, DecidableEq

/-- np.arange over exact rationals: the number of points is the ceiling of
the span divided by the step. -/
def arangeQ (start stop step : ℚ) : List ℚ :=
  if step ≤ 0 then [] else
  (List.range (Int.toNat (-(ratFloor (-((stop - start) / step)))))).map
    (fun i : ℕ => start + (i : ℚ) * step)

/-- Descriptor-side inputs of the frame decoder; the two codec functions
abstract the numpy byte-level decodings. -/
structure PDParams where
  sensor_name : String
  c_type : CType
  checkTimestampsFlag : Bool
  dim : Option ℤ
  data_type : String
  samples_per_ts : SptsSpec
  odr : Option ℚ
  measodr : Option ℚ
  sensitivity : Option ℚ
  fft_length : Option ℤ
  is_fft : Bool
  fft_sample_freq : Option ℚ
  telemetry_names : List String
  scaler_current : ℚ
  scaler_voltage : ℚ
  is_fast_tele : Bool
  is_slow_tele : Bool
  decode_ts : List ℕ → TS
  decode_data : String → List ℕ → List ℚ

/-- Result of the frame decoder: scaled rows, per-sample times, the numpy
datatype of the sample array, and the updated component status. -/
structure DecodeOut where
  values : List (List ℚ)
  times : List TS
  dtype : OutDType
  cs : CompStatus
deriving Repr, DecidableEq

/-- Lines 789-808: resolution of samples_per_ts inside __process_datalog
(sensors fall back to the per-frame sample count, FFT algorithms force 1,
actuators without the key derive it from the frame geometry). -/
def resolve_spts_pd (p : PDParams) (dataframe_size data1D : ℤ) : ℤ :=
  let spts0 : ℤ :=
    match p.samples_per_ts with
    | .int n => n
    | .obj v => v.getD 0
    | .absent => 0
  match p.c_type with
  | .sensor => if spts0 = 0 then Int.tdiv data1D (p.dim.getD 1) else spts0
  | .algorithm => if p.is_fft then 1 else spts0
  | .actuator =>
    if p.samples_per_ts = .absent then
      pyFloorDiv (pyFloorDiv dataframe_size (check_type_length (data_type_string p.sensor_name p.data_type))) (p.telemetry_names.length : ℤ)
    else spts0
  | .other => spts0

/-- Lines 617-640: the frame period in seconds (auxiliary MLC and ISPU
streams use 0; the default sensor path divides the resolved
samples_per_ts by measodr when present and nonzero, else odr).  The Light
and PowerMeter category formulas are not needed by any claim and the
default formula is used for every sensor category here. -/
def frame_period_of (p : PDParams) (spts : ℤ) : ℚ :=
  let mlcIspu := containsSub "_mlc" p.sensor_name || containsSub "_ispu" p.sensor_name
  let measodr_eff : ℚ :=
    match p.measodr with
    | some m => if m = 0 then p.odr.getD 0 else m
    | none => p.odr.getD 0
  match p.c_type with
  | .sensor => if mlcIspu then 0 else (spts : ℚ) / measodr_eff
  | .algorithm => if p.is_fft then (spts : ℚ) / (p.fft_sample_freq.getD 0) else 0
  | .actuator => if p.samples_per_ts = .absent then 0 else (spts : ℚ) / (p.odr.getD 0)
  | .other => 0

/-- Per-frame decoded sample count, line 786 (int of the true quotient of
the dataframe size by the forced datatype width). -/
def pd_data1D (p : PDParams) (dataframe_size : ℤ) : ℤ :=
  Int.tdiv dataframe_size (check_type_length (data_type_string p.sensor_name p.data_type))

/-- The resolved samples_per_ts as seen inside the decoder. -/
def pd_spts (p : PDParams) (dataframe_size : ℤ) : ℤ :=
  resolve_spts_pd p dataframe_size (pd_data1D p dataframe_size)

/-- Lines 611-616 and 627-636: timestamp repair runs only for sensors, only
when the debug flag is on, and never for MLC or ISPU auxiliary channels. -/
def check_timestamps_of (p : PDParams) : Bool :=
  match p.c_type with
  | .sensor =>
    p.checkTimestampsFlag &&
      !(containsSub "_mlc" p.sensor_name || containsSub "_ispu" p.sensor_name)
  | _ => false

/-- The decoded and (possibly) repaired frame sequence of one buffer. -/
def pd_frames (p : PDParams) (raw_data : List ℕ) (dataframe_size timestamp_size : ℤ) :
    List Frame :=
  let frame_size := dataframe_size + timestamp_size
  let num_frames : ℕ := raw_data.length / frame_size.toNat
  let rnd := raw_data.take (frame_size.toNat * num_frames)
  repair_frames (check_timestamps_of p) (frame_period_of p (pd_spts p dataframe_size))
    (decode_frames p.decode_ts p.decode_data (data_type_string p.sensor_name p.data_type)
      dataframe_size timestamp_size num_frames rnd)

/-- The frame decoder and unit scaler:
HSDatalog_v2.__process_datalog together with its inner
extract_data_and_timestamps (lines 600-810), for one call on an assembled
payload buffer. -/
def process_datalog (p : PDParams) (cs : CompStatus) (raw_data : List ℕ)
    (dataframe_size timestamp_size : ℤ) (raw_flag : Bool) (start_time : ℚ)
    (prev_timestamp : Option TS) : DecodeOut :=
  let frame_size := dataframe_size + timestamp_size
  let num_frames : ℕ := raw_data.length / frame_size.toNat
  let dts := data_type_string p.sensor_name p.data_type
  let data1D := pd_data1D p dataframe_size
  let spts := pd_spts p dataframe_size
  let frame_period := frame_period_of p spts
  let rnd := raw_data.take (frame_size.toNat * num_frames)
  let timestamp_first : TS :=
    if start_time ≠ 0 then some start_time else cs.ioffset.getD (some 0)
  let frames := pd_frames p raw_data dataframe_size timestamp_size
  let tsData : List ℚ × List TS :=
    if timestamp_size ≠ 0 then
      ((frames.map (fun f => f.data)).flatten, frames.map (fun f => f.ts))
    else
      let dataAll := p.decode_data dts rnd
      let first_chunk := cs.is_first_chunk.getD false
      let tss : List TS :=
        match timestamp_first with
        | some t0 =>
          let st := if first_chunk then t0 else t0 + frame_period
          let sp := st + (num_frames : ℚ) * frame_period
          ((arangeQ st sp frame_period).map some).take num_frames
        | none => []
      (dataAll, tss)
  let data := tsData.1
  let timestamps := tsData.2
  let scaled : Scaled :=
    match p.c_type with
    | .sensor =>
      sensor_scaled p.sensor_name (p.dim.getD 1) (p.sensitivity.getD 1) p.data_type raw_flag data
    | .algorithm => algorithm_scaled (p.fft_length.getD 0) (p.sensitivity.getD 1) raw_flag data
    | .actuator =>
      if p.is_slow_tele || p.is_fast_tele then
        actuator_scaled p.telemetry_names p.scaler_current p.scaler_voltage p.is_fast_tele raw_flag data
      else { values := [], dtype := .npFloat32 }
    | .other => { values := [], dtype := .npFloat32 }
  let dataLen : ℕ :=
    if timestamp_size ≠ 0 then data1D.toNat * num_frames else data.length
  if dataLen = 0 then { values := [], times := [], dtype := scaled.dtype, cs := cs } else
  if 1 < spts then
    let ioffset : TS := cs.ioffset.getD (some 0)
    let first_chunk := cs.is_first_chunk.getD false
    let tss2 : List TS :=
      if start_time ≠ 0 && first_chunk then
        match prev_timestamp with
        | some pt => pt :: timestamps
        | none => ioffset :: timestamps
      else ioffset :: timestamps
    let cs2 := { cs with ioffset := some (tss2.getLastD none) }
    let samples_times := samples_times_interp frame_period spts.toNat tss2
    let fil := sentinel_filter scaled.values samples_times
    { values := fil.1, times := fil.2, dtype := scaled.dtype, cs := cs2 }
  else
    let cs2 :=
      if 0 < timestamps.length then { cs with ioffset := some (timestamps.getLastD none) } else cs
    let fil := sentinel_filter scaled.values timestamps
    { values := fil.1, times := fil.2, dtype := scaled.dtype, cs := cs2 }

/-! ## Packet Stream Reader (__extract_data, lines 964-1160) -/

/-- The 4-byte transport integrity counter width (self.data_protocol_size). -/
def data_protocol_size : ℤ := 4

/-- Values closed over by one __extract_data invocation (computed by the
batch front end, lines 846-962). -/
structure ExtractEnv where
  file : List ℕ
  data_packet_size : ℤ
  cmplt_pkt_size : ℤ
  nof_data_packet : ℕ
  dataframe_byte_size : ℤ
  timestamp_byte_size : ℤ
  start_idx : ℤ
  last_timestamp : ℚ
  s_samples_per_ts : ℤ
  odr : ℚ
  read_start_bytes : ℤ
  read_end_bytes : ℤ
  decode_ts : List ℕ → TS
  start_time : ℚ
  end_time : ℚ

/-- The mutable locals of the packet loop. -/
structure LoopState where
  last_index : ℤ
  missing_bytes : ℤ
  saved_bytes : ℤ
  skip_counter_check : Bool
  byte_chest : List ℕ
  raw_data_array : List ℕ
  prev_timestamp : Option TS
  end_time : ℚ
  cs : CompStatus
deriving Repr, DecidableEq

/-- Result of one __extract_data call: a normal return of the assembled
frame bytes and look-back timestamp, or the DataCorruptedException raised
on a counter mismatch. -/
inductive ExtractOut where
  | ok (raw_data_array : List ℕ) (prev : Option TS) (cs : CompStatus)
  | corrupted (cs : CompStatus)
deriving Repr, DecidableEq

/-- Outcome of one for-loop iteration: continue with the next packet or
leave the loop with a final result. -/
inductive StepRes where
  | next (s : LoopState)
  | stop (out : ExtractOut)
deriving Repr, DecidableEq

/-- State of the inner while loop that peels whole frames off the byte
chest (lines 1076-1137). -/
structure WState where
  byte_chest : List ℕ
  raw_data_array : List ℕ
  prev_timestamp : Option TS
  end_time : ℚ
  cs : CompStatus
  end_time_flag : Bool
  extracted_timestamp : Option TS
deriving Repr, DecidableEq

/-- Lines 1100-1112: the end-of-window frame was appended; the end time is
pinned to its timestamp and the cursor is written so that the next call
resumes right after this frame. -/
def finish_end (env : ExtractEnv) (lastL : ℤ) (n : ℕ) (s : WState) (ts : TS) : WState :=
  let el := env.dataframe_byte_size + env.timestamp_byte_size
  let bp : ℤ × CompStatus :=
    if s.cs.is_same_dps.getD false then (lastL, { s.cs with is_same_dps := some false })
    else (lastL + ((n : ℤ) + 1) * env.cmplt_pkt_size, s.cs)
  let missing := (s.byte_chest.length : ℤ) - el
  { s with end_time := ts.getD s.end_time,
           end_time_flag := true,
           cs := { bp.2 with missing_bytes := some missing,
                             saved_bytes := some (s.raw_data_array.length : ℤ),
                             last_index := some (bp.1 - missing) } }

/-- Lines 1076-1137: the while loop decoding one frame timestamp at a time
from the byte chest.  A frame whose timestamp exceeds start_time is
appended to the output; the end-of-window, look-back and drop branches are
translated verbatim from the source (fuel bounds the iterations; one unit
per frame consumed suffices). -/
def while_chest (env : ExtractEnv) (lastL : ℤ) (n : ℕ) : ℕ → WState → WState
  | 0, s => s
  | fuel+1, s =>
    let el := env.dataframe_byte_size + env.timestamp_byte_size
    if el.toNat ≤ s.byte_chest.length then
      let ts := env.decode_ts (sliceL s.byte_chest env.dataframe_byte_size env.timestamp_byte_size)
      let s1 := { s with extracted_timestamp := some ts }
      if tsGtQ ts env.start_time then
        let s2 := { s1 with raw_data_array := s1.raw_data_array ++ s1.byte_chest.take el.toNat }
        if decide (s2.end_time ≠ -1) && tsGeQ ts s2.end_time then
          if s2.prev_timestamp = none ∧ s2.cs.is_first_chunk.getD false then
            if tsGtQ ts env.start_time then
              if lastL = 0 then
                finish_end env lastL n
                  { s2 with prev_timestamp := some (s2.cs.ioffset.getD (some 0)) } ts
              else { s2 with prev_timestamp := some ts, end_time_flag := true }
            else finish_end env lastL n { s2 with prev_timestamp := some ts } ts
          else finish_end env lastL n s2 ts
        else
          if s2.prev_timestamp = none ∧ s2.cs.is_first_chunk.getD false then
            if tsGtQ ts env.start_time then
              if lastL = 0 then
                while_chest env lastL n fuel
                  { s2 with prev_timestamp := some (s2.cs.ioffset.getD (some 0)),
                            byte_chest := s2.byte_chest.drop el.toNat }
              else
                { s2 with prev_timestamp := some ts, end_time_flag := true,
                          cs := { s2.cs with prev_data_byte_counter := none } }
            else
              while_chest env lastL n fuel
                { s2 with prev_timestamp := some ts,
                          byte_chest := s2.byte_chest.drop el.toNat }
          else
            while_chest env lastL n fuel { s2 with byte_chest := s2.byte_chest.drop el.toNat }
      else
        let s2 :=
          if s1.cs.is_first_chunk.getD false then { s1 with prev_timestamp := some ts } else s1
        { s2 with byte_chest := s2.byte_chest.drop el.toNat }
    else s

/-- Line 1139: near the end of the acquisition, a fresh cursor stops early
once the last decoded timestamp is within one frame period of the
acquisition end (false on a NaN timestamp, as for the float comparison). -/
def near_end_check (env : ExtractEnv) (csLast : Option ℤ) (ex : Option TS) : Bool :=
  match csLast, ex with
  | none, some (some t) =>
    decide (env.last_timestamp - t < (env.s_samples_per_ts : ℚ) / env.odr)
  | _, _ => false

/-- Lines 1051-1155: counter stripped, data appended to the byte chest,
then either the byte-budget path (timestamp_byte_size 0) or the
frame-timestamp path with its after-loop checks. -/
def chest_phase (env : ExtractEnv) (n : ℕ) (s : LoopState) (data_bytes : List ℕ) : StepRes :=
  let s1 := { s with byte_chest := s.byte_chest ++ data_bytes }
  if env.timestamp_byte_size = 0 then
    if decide ((env.read_end_bytes - env.read_start_bytes) ≤ (s1.byte_chest.length : ℤ)) then
      let el := env.read_end_bytes - env.read_start_bytes
      let rda2 := s1.raw_data_array ++ s1.byte_chest.take el.toNat
      let csb : ℤ × CompStatus :=
        if s1.cs.is_same_dps.getD false then
          (s1.last_index, { s1.cs with is_same_dps := some false })
        else (s1.last_index + ((n : ℤ) + 1) * env.cmplt_pkt_size, s1.cs)
      let missing := (s1.byte_chest.length : ℤ) - el
      .stop (.ok rda2 s1.prev_timestamp
        { csb.2 with missing_bytes := some missing,
                     saved_bytes := some (rda2.length : ℤ),
                     last_index := some (csb.1 - missing) })
    else .next s1
  else
    let w := while_chest env s1.last_index n (s1.byte_chest.length + 1)
      { byte_chest := s1.byte_chest, raw_data_array := s1.raw_data_array,
        prev_timestamp := s1.prev_timestamp, end_time := s1.end_time, cs := s1.cs,
        end_time_flag := false, extracted_timestamp := none }
    let s2 := { s1 with byte_chest := w.byte_chest, raw_data_array := w.raw_data_array,
                        prev_timestamp := w.prev_timestamp, end_time := w.end_time,
                        cs := w.cs }
    if near_end_check env s2.cs.last_index w.extracted_timestamp then
      let bp := s2.last_index + ((n : ℤ) + 1) * env.cmplt_pkt_size
      .stop (.ok s2.raw_data_array s2.prev_timestamp
        { s2.cs with missing_bytes := some (s2.byte_chest.length : ℤ),
                     saved_bytes := some (s2.raw_data_array.length : ℤ),
                     last_index := some (bp - (s2.byte_chest.length : ℤ)) })
    else if decide (s2.last_index ≠ (0 : ℤ)) &&
        (match w.extracted_timestamp with
         | some (some t) => decide (t < s2.end_time)
         | _ => false) &&
        decide (s2.byte_chest.length ≠ 0) &&
        decide (s2.cs.missing_bytes.getD 0 ≠ 0) then
      .stop (.ok s2.raw_data_array s2.prev_timestamp
        { s2.cs with missing_bytes := some (s2.byte_chest.length : ℤ),
                     saved_bytes := some (s2.raw_data_array.length : ℤ),
                     last_index := some (s2.last_index - (s2.byte_chest.length : ℤ)) })
    else if w.end_time_flag then .stop (.ok s2.raw_data_array s2.prev_timestamp s2.cs)
    else .next s2

/-- Lines 1032-1049: the transport counter validation.  A missing recorded
counter is recorded; a mismatch on the very first packet of a first chunk
whose recorded counter is exactly 0 drops the packet and continues,
otherwise DataCorruptedException is raised; a match records the counter. -/
def counter_then_chest (env : ExtractEnv) (n : ℕ) (s : LoopState)
    (data_bytes counter_bytes : List ℕ) : StepRes :=
  if s.skip_counter_check then chest_phase env n s data_bytes
  else
    let counter := leU32 counter_bytes
    match s.cs.prev_data_byte_counter with
    | none =>
      chest_phase env n
        { s with cs := { s.cs with prev_data_byte_counter := some counter } } data_bytes
    | some p =>
      if counter - p ≠ env.data_packet_size then
        if s.cs.is_first_chunk.getD true ∧ n = 0 ∧ p = 0 then .next s
        else .stop (.corrupted s.cs)
      else
        chest_phase env n
          { s with cs := { s.cs with prev_data_byte_counter := some counter } } data_bytes

/-- One iteration of the packet for loop (lines 993-1155): end-of-file
check, the three-way read (mid-packet resume without a counter, mid-packet
resume spanning into the next packet, or a fresh whole packet), counter
validation, then the chest processing. -/
def extract_step (env : ExtractEnv) (n : ℕ) (s : LoopState) : StepRes :=
  let fsize := (env.file.length : ℤ)
  let file_index := s.last_index + (n : ℤ) * env.cmplt_pkt_size
  if fsize ≤ file_index then
    .stop (.ok s.raw_data_array s.prev_timestamp
      { s.cs with missing_bytes := some (s.byte_chest.length : ℤ),
                  saved_bytes := some (s.raw_data_array.length : ℤ),
                  last_index := some file_index })
  else
    if s.last_index ≠ 0 then
      if s.saved_bytes ≠ 0 ∧ s.saved_bytes ≤ s.missing_bytes then
        let raw := sliceL env.file file_index s.missing_bytes
        let cs1 := { s.cs with is_same_dps := some true }
        if decide ((raw.length : ℤ) < s.missing_bytes) then .stop (.ok [] none cs1)
        else
          let data_bytes := raw.take s.missing_bytes.toNat
          let s2 := { s with cs := { cs1 with missing_bytes := some 0 },
                             last_index := s.last_index + s.missing_bytes,
                             missing_bytes := 0,
                             skip_counter_check := true }
          counter_then_chest env n s2 data_bytes []
      else
        let raw := sliceL env.file file_index (s.missing_bytes + env.cmplt_pkt_size)
        let cs1 := { s.cs with is_same_dps := some false }
        if decide ((raw.length : ℤ) < s.missing_bytes + env.cmplt_pkt_size) then
          .stop (.ok [] none cs1)
        else
          let data_bytes :=
            raw.take s.missing_bytes.toNat ++ raw.drop (s.missing_bytes + data_protocol_size).toNat
          let counter_bytes := (raw.drop s.missing_bytes.toNat).take data_protocol_size.toNat
          let s2 := { s with cs := { cs1 with missing_bytes := some 0 },
                             last_index := s.last_index + s.missing_bytes,
                             missing_bytes := 0 }
          counter_then_chest env n s2 data_bytes counter_bytes
    else
      let raw := sliceL env.file file_index env.cmplt_pkt_size
      if decide ((raw.length : ℤ) + (s.byte_chest.length : ℤ) < env.cmplt_pkt_size) then
        .stop (.ok [] none s.cs)
      else
        let data_bytes := raw.drop data_protocol_size.toNat
        let counter_bytes := raw.take data_protocol_size.toNat
        counter_then_chest env n s data_bytes counter_bytes

/-- The packet for loop: at most nof_data_packet + 1 iterations; falling
off the end returns the assembled output (the trim at lines 1157-1160). -/
def extract_loop (env : ExtractEnv) : ℕ → ℕ → LoopState → ExtractOut
  | 0, _, s => .ok s.raw_data_array s.prev_timestamp s.cs
  | fuel+1, n, s =>
    match extract_step env n s with
    | .next s2 => extract_loop env fuel (n + 1) s2
    | .stop out => out

/-- One __extract_data call (lines 964-1160): cursor fields are read with
their dictionary defaults, the look-back start override of lines 974-982
is applied on a fresh cursor, and the packet loop runs. -/
def extract_data (env : ExtractEnv) (nof_prev_timestamps : ℤ) (cs : CompStatus) : ExtractOut :=
  let last0 := cs.last_index.getD 0
  let missing0 := cs.missing_bytes.getD 0
  let lm : ℤ × ℤ :=
    if last0 = 0 ∧ env.start_idx ≠ 0 then
      let data_and_ts := nof_prev_timestamps * (env.dataframe_byte_size + env.timestamp_byte_size)
      let nof_counters := pyCeilDiv data_and_ts env.data_packet_size
      let packet_bytes := nof_counters * data_protocol_size + data_and_ts
      (packet_bytes, pyCeilDiv packet_bytes env.cmplt_pkt_size * env.cmplt_pkt_size - packet_bytes)
    else (last0, missing0)
  extract_loop env (env.nof_data_packet + 1) 0
    { last_index := lm.1, missing_bytes := lm.2, saved_bytes := cs.saved_bytes.getD 0,
      skip_counter_check := false, byte_chest := [], raw_data_array := [],
      prev_timestamp := none, end_time := env.end_time, cs := cs }

/-! ## Window Locator and batch entry point (lines 846-962, 1162-1184) -/

/-- Comparison of the look-back timestamp with the requested start (the
loop guard of line 1166); a Python None or a NaN compares false. -/
def optTsGt (p : Option TS) (q : ℚ) : Bool :=
  match p with
  | some t => tsGtQ t q
  | none => false

/-- Result of the look-back retry loop. -/
inductive LocOut where
  | done (rda : List ℕ) (prev : Option TS) (cs : CompStatus)
  | corrupted (cs : CompStatus)
  | fuel (cs : CompStatus)
deriving Repr, DecidableEq

/-- Lines 1166-1168: while the earliest decoded timestamp still exceeds
start_time, retry the extraction with one fewer look-back frame.  The
source has no fuel bound; the explicit fuel makes the loop total, and
running out of fuel is reported as its own outcome. -/
def locator_go (env : ExtractEnv) : ℕ → ℤ → List ℕ → Option TS → CompStatus → LocOut
  | 0, _, rda, prev, cs =>
    if optTsGt prev env.start_time then .fuel cs else .done rda prev cs
  | fuelN+1, nof, rda, prev, cs =>
    if optTsGt prev env.start_time then
      match extract_data env (nof - 1) cs with
      | .corrupted cs2 => .corrupted cs2
      | .ok rda2 prev2 cs2 => locator_go env fuelN (nof - 1) rda2 prev2 cs2
    else .done rda prev cs

/-- Lines 1162-1168: the initial extraction with
max(0, nof_timestamps_in_start - 2) look-back frames, then the retry loop
(entered only when that count is nonzero). -/
def run_locator (env : ExtractEnv) (locFuel : ℕ) (nof_prev : ℤ) (cs : CompStatus) : LocOut :=
  match extract_data env nof_prev cs with
  | .corrupted cs2 => .corrupted cs2
  | .ok rda prev cs2 =>
    if nof_prev ≠ 0 then locator_go env locFuel nof_prev rda prev cs2
    else .done rda prev cs2

/-- Inputs of get_data_and_timestamps_batch beyond the cursor: the raw
file, the acquisition interface and transport packet sizes, the
acquisition duration in seconds (modelled directly; the source derives it
from the ISO-8601 start and end metadata strings), and the descriptor. -/
structure BatchEnv where
  file : List ℕ
  interface : ℤ
  sd_dps : ℤ
  usb_dps : ℤ
  ble_dps : ℤ
  serial_dps : ℤ
  acquisition_duration : ℚ
  pd : PDParams

/-- Result of one batch entry-point call. -/
inductive BatchOut where
  | ok (values : List (List ℚ)) (times : List TS) (cs : CompStatus)
  | corrupted (cs : CompStatus)
  | unknown_interface
  | fuel_exhausted (cs : CompStatus)
  | other_path
deriving Repr, DecidableEq

/-- get_data_and_timestamps_batch (lines 846-1184), for the sensor branch
(the algorithm and actuator no-odr branches of lines 1186-1238 decode the
whole file without windowing and are outside every claim).  locFuel bounds
the look-back retry loop, which the source leaves unbounded. -/
def get_data_and_timestamps_batch (b : BatchEnv) (cs : CompStatus)
    (start_time end_time : ℚ) (raw_flag : Bool) (locFuel : ℕ) : BatchOut :=
  if b.pd.c_type ≠ .sensor then .other_path else
  let dps0 : Option ℤ :=
    if b.interface = 0 then some (b.sd_dps - data_protocol_size)
    else if b.interface = 1 then some b.usb_dps
    else if b.interface = 2 then some b.ble_dps
    else if b.interface = 3 then some b.serial_dps
    else none
  match dps0 with
  | none => .unknown_interface
  | some data_packet_size =>
    let file_size := (b.file.length : ℤ)
    let cmplt := data_packet_size + data_protocol_size
    let nof_data_packet := pyFloorDiv file_size cmplt
    let s_dim := b.pd.dim.getD 1
    let s_data_type_len := check_type_length b.pd.data_type
    let s_spts := resolveSpts b.pd.samples_per_ts b.pd.c_type
    let geom : ℤ × ℤ :=
      if s_spts ≠ 0 then (s_spts * s_dim * s_data_type_len, 8) else (s_dim * s_data_type_len, 0)
    let dataframe_byte_size := geom.1
    let timestamp_byte_size := geom.2
    let odr : ℚ :=
      match b.pd.measodr with
      | some m => if m = 0 then b.pd.odr.getD 1 else m
      | none => b.pd.odr.getD 1
    let tot_counters_bytes := nof_data_packet * data_protocol_size
    let tot_fdt := file_size - tot_counters_bytes
    let tot_ts_bytes :=
      pyFloorDiv tot_fdt (dataframe_byte_size + timestamp_byte_size) * timestamp_byte_size
    let tot_data_bytes := tot_fdt - tot_ts_bytes
    let tot_data_samples := Int.tdiv tot_data_bytes (s_data_type_len * s_dim)
    let start_sample_idx := ratFloor (odr * start_time)
    let start_data_bytes_idx := start_sample_idx * s_data_type_len * s_dim
    let nof_ts_in_start : ℤ := if s_spts ≠ 0 then pyFloorDiv start_sample_idx s_spts else 0
    let rse : Option (ℤ × ℤ) :=
      if s_spts ≠ 0 then some (0, 0)
      else
        let sample_end0 := if end_time ≠ -1 then ratTrunc (odr * end_time) else -1
        let sample_end :=
          if tot_data_samples < sample_end0 ∨ sample_end0 = -1 then tot_data_samples
          else sample_end0
        let sample_start := ratTrunc (odr * start_time)
        if tot_data_samples ≤ sample_start then none
        else some (sample_start * dataframe_byte_size, sample_end * dataframe_byte_size)
    match rse with
    | none => .ok [] [] cs
    | some rsb =>
      let start_data_and_times := start_data_bytes_idx + nof_ts_in_start * timestamp_byte_size
      let nof_counter_in_start := pyFloorDiv start_data_and_times data_packet_size
      let start_idx := start_data_and_times + nof_counter_in_start * data_protocol_size
      let last_timestamp := b.acquisition_duration
      let end2 := if end_time = -1 ∨ last_timestamp < end_time then last_timestamp else end_time
      if last_timestamp < start_time then .ok [] [] cs
      else
        let env : ExtractEnv :=
          { file := b.file, data_packet_size := data_packet_size, cmplt_pkt_size := cmplt,
            nof_data_packet := nof_data_packet.toNat,
            dataframe_byte_size := dataframe_byte_size,
            timestamp_byte_size := timestamp_byte_size,
            start_idx := start_idx, last_timestamp := last_timestamp,
            s_samples_per_ts := s_spts, odr := odr,
            read_start_bytes := rsb.1, read_end_bytes := rsb.2,
            decode_ts := b.pd.decode_ts, start_time := start_time, end_time := end2 }
        let nof_prev := max 0 (nof_ts_in_start - 2)
        match run_locator env locFuel nof_prev cs with
        | .corrupted cs2 => .corrupted cs2
        | .fuel cs2 => .fuel_exhausted cs2
        | .done rda prev cs2 =>
          let out :=
            process_datalog b.pd cs2 rda dataframe_byte_size timestamp_byte_size
              raw_flag start_time prev
          let cs3 :=
            if out.cs.last_index = none then
              { out.cs with missing_bytes := some 0, saved_bytes := some 0,
                            last_index := some (((nof_data_packet.toNat : ℤ) + 1) * cmplt) }
            else out.cs
          .ok out.values out.times cs3

/-! ## Concrete instances used by witnesses and counterexamples -/

/-- Concrete timestamp codec for witness files: the timestamp is the first
byte of the 8-byte field, with 255 denoting NaN. -/
def tsByte (bs : List ℕ) : TS :=
  match bs.head? with
  | some 255 => none
  | some b => some (b : ℚ)
  | none => none

/-- Concrete data codec for witness files: a segment decodes to its bytes
as rational values, whatever the datatype name. -/
def dataBytes (_ : String) (bs : List ℕ) : List ℚ := bs.map (fun b => (b : ℚ))

/-- One 10-byte witness frame: two data bytes, then the timestamp byte and
seven padding bytes. -/
def mkFrame (t d0 d1 : ℕ) : List ℕ := [d0, d1, t, 0, 0, 0, 0, 0, 0, 0]

/-- Sixteen frames with timestamps 1..16 and running data bytes. -/
def frameStreamA : List ℕ :=
  ((List.range 16).map (fun i => mkFrame (i + 1) (2 * i) (2 * i + 1))).flatten

/-- A valid 8-packet raw file: each packet is a 4-byte counter (0, 20, 40,
..., 140, little-endian) followed by 20 payload bytes of the frame
stream. -/
def fileA : List ℕ :=
  ((List.range 8).map
    (fun k => [20 * k, 0, 0, 0] ++ (frameStreamA.drop (20 * k)).take 20)).flatten

/-- Witness descriptor variant with one channel and two samples per
embedded timestamp. -/
def pdB : PDParams :=
  { sensor_name := "acc", c_type := .sensor, checkTimestampsFlag := false,
    dim := some 1, data_type := "int8", samples_per_ts := .int 2,
    odr := some 1, measodr := none, sensitivity := none, fft_length := none,
    is_fft := false, fft_sample_freq := none, telemetry_names := [],
    scaler_current := 1, scaler_voltage := 1, is_fast_tele := false,
    is_slow_tele := false, decode_ts := tsByte, decode_data := dataBytes }

/-- Witness descriptor: a plain sensor, dim 2, int8 data, one sample per
timestamp, odr 1 Hz. -/
def pdA : PDParams :=
  { sensor_name := "acc", c_type := .sensor, checkTimestampsFlag := false,
    dim := some 2, data_type := "int8", samples_per_ts := .int 1,
    odr := some 1, measodr := none, sensitivity := none, fft_length := none,
    is_fft := false, fft_sample_freq := none, telemetry_names := [],
    scaler_current := 1, scaler_voltage := 1, is_fast_tele := false,
    is_slow_tele := false, decode_ts := tsByte, decode_data := dataBytes }

/-- Witness batch environment: USB interface with a 20-byte transport
payload and a 20-second acquisition. -/
def envA : BatchEnv :=
  { file := fileA, interface := 1, sd_dps := 0, usb_dps := 20, ble_dps := 0,
    serial_dps := 0, acquisition_duration := 20, pd := pdA }

/-- Cursor state produced by the first witness call over [0, 6/5). -/
def csA1 : CompStatus :=
  { last_index := some 24, missing_bytes := some 0, saved_bytes := some 20,
    prev_data_byte_counter := some 0, ioffset := some (some 2) }

/-- Cursor state produced by the follow-up call over [6/5, 3/2). -/
def csA2 : CompStatus :=
  { last_index := some 38, missing_bytes := some 10, saved_bytes := some 10,
    is_same_dps := some false, prev_data_byte_counter := some 20,
    ioffset := some (some 3) }

/-- Cursor state after the look-back run that starts at time 5. -/
def csA3 : CompStatus :=
  { last_index := some 192, missing_bytes := some 0, saved_bytes := some 110,
    is_same_dps := some false, is_first_chunk := some true,
    prev_data_byte_counter := some 140, ioffset := some (some 16) }

/-- Witness packet-loop environment matching envA's geometry. -/
def envW : ExtractEnv :=
  { file := fileA, data_packet_size := 20, cmplt_pkt_size := 24, nof_data_packet := 8,
    dataframe_byte_size := 2, timestamp_byte_size := 8, start_idx := 0,
    last_timestamp := 20, s_samples_per_ts := 1, odr := 1,
    read_start_bytes := 0, read_end_bytes := 0, decode_ts := tsByte,
    start_time := 0, end_time := 20 }

/-- Witness loop state: a first-chunk cursor whose recorded counter is 0. -/
def sW : LoopState :=
  { last_index := 0, missing_bytes := 0, saved_bytes := 0, skip_counter_check := false,
    byte_chest := [], raw_data_array := [], prev_timestamp := none, end_time := 20,
    cs := { prev_data_byte_counter := some 0, is_first_chunk := some true } }

/-- The output byte array of the packet loop in the embedded-timestamp
mode is a concatenation of whole frames, each of which carries a decoded
timestamp strictly greater than the requested start_time. -/
def frames_gt (env : ExtractEnv) (l : List ℕ) : Prop :=
  ∃ fl : List (List ℕ), l = fl.flatten ∧ ∀ fr ∈ fl,
    fr.length = (env.dataframe_byte_size + env.timestamp_byte_size).toNat ∧
    tsGtQ (env.decode_ts (sliceL fr env.dataframe_byte_size env.timestamp_byte_size))
      env.start_time = true

/-- frames_gt transported through the outcome of one loop iteration: it
holds of the next state's accumulated output, of a normal stop's returned
array, and vacuously of a corruption stop. -/
def stepres_gt (env : ExtractEnv) : StepRes → Prop
  | .next s2 => frames_gt env s2.raw_data_array
  | .stop (.ok r _ _) => frames_gt env r
  | .stop (.corrupted _) => True

/-- Packet-boundary alignment of a returned cursor: either last_index
itself is a multiple of the complete packet size, or last_index was
written as a packet boundary minus missing_bytes, so that
last_index + missing_bytes is the multiple. -/
def AOK (c : ℤ) (cs : CompStatus) : Prop :=
  cs.last_index.getD 0 % c = 0 ∨ (cs.last_index.getD 0 + cs.missing_bytes.getD 0) % c = 0

/-- Mid-loop alignment invariant of the packet for loop: the carried
cursor's recorded last_index is aligned, the loop-local last_index is
aligned, and no partial-packet bytes remain pending. -/
def LINV0 (env : ExtractEnv) (s : LoopState) : Prop :=
  s.cs.last_index.getD 0 % env.cmplt_pkt_size = 0 ∧
  s.last_index % env.cmplt_pkt_size = 0 ∧ s.missing_bytes = 0

/-- Alignment transported through the outcome of one loop iteration. -/
def stepres_c4 (env : ExtractEnv) : StepRes → Prop
  | .next s2 => LINV0 env s2
  | .stop (.ok _ _ cs2) => AOK env.cmplt_pkt_size cs2
  | .stop (.corrupted _) => True

/-! ## Theorems -/

/-- C9 counterexample.  For the ISPU-named sensor with sensitivity 1/2 and
raw value 1, scaled (non-raw) extraction returns 0 in an int8 array, not
the floating-point product 1/2: the claimed elementwise raw-times-
sensitivity floating-point contract fails on the ISPU path. -/
theorem c9_counterexample :
    (sensor_scaled "acc_ispu" 3 (1/2) "int16" false [1]).values = [[(0 : ℚ)]]
    ∧ (sensor_scaled "acc_ispu" 3 (1/2) "int16" false [1]).dtype ≠ OutDType.npFloat32
    ∧ (0 : ℚ) ≠ 1 * (1/2) := by
  refine ⟨?_, ?_, ?_⟩ <;> with_unfolding_all decide

/-- C9 amended: in raw mode sensor values pass through unchanged with the
decoded datatype; in scaled mode non-ISPU sensors and FFT algorithms
multiply every element by the sensitivity into float32, and actuator fast
telemetry multiplies each column by its name-selected current or voltage
factor into float32 (ISPU sensors instead truncate into int8, and the
algorithm and actuator reshapes cast to float32 even in raw mode). -/
theorem c9_amended (name decl : String) (s_dim : ℤ) (sens : ℚ) (data : List ℚ)
    (fftlen : ℤ) (tele : List String) (cur vol : ℚ)
    (hni : containsSub "_ispu" name = false) :
    (sensor_scaled name s_dim sens decl true data).values
        = data.toChunks (reshape_width name s_dim).toNat
    ∧ (sensor_scaled name s_dim sens decl true data).dtype
        = OutDType.declared (data_type_string name decl)
    ∧ (sensor_scaled name s_dim sens decl false data).values
        = (data.toChunks s_dim.toNat).map (fun r => r.map (fun v => v * sens))
    ∧ (sensor_scaled name s_dim sens decl false data).dtype = OutDType.npFloat32
    ∧ (algorithm_scaled fftlen sens false data).values
        = (data.toChunks fftlen.toNat).map (fun r => r.map (fun v => v * sens))
    ∧ (algorithm_scaled fftlen sens false data).dtype = OutDType.npFloat32
    ∧ (actuator_scaled tele cur vol true false data).values
        = (data.toChunks tele.length).map
            (fun r => (r.zip tele).map (fun q => telemetry_scale cur vol q.2 q.1))
    ∧ (actuator_scaled tele cur vol true false data).dtype = OutDType.npFloat32 := by
  simp [sensor_scaled, algorithm_scaled, actuator_scaled, reshape_width, hni]

/-- C9 witness: the amended scaling contract applied to a concrete non-ISPU
sensor, algorithm and actuator input. -/
theorem c9_amended_witness :
    containsSub "_ispu" "acc" = false
    ∧ (sensor_scaled "acc" 2 3 "int16" true [2, 4]).values
        = [2, 4].toChunks (reshape_width "acc" 2).toNat := by
  exact ⟨by decide, (c9_amended "acc" "int16" 2 3 [2, 4] 1 ["ia", "vb"] 5 7 (by decide)).1⟩

/-- C10.  For an ISPU-named sensor the decoder ignores the declared
datatype and dim: the decode datatype is forced to int8, the reshape width
is forced to 64 channels, and scaled output is cast to np.byte (truncating
in-place multiplication), hence not floating point. -/
theorem c10_ispu (name decl : String) (s_dim : ℤ) (sens : ℚ) (data : List ℚ)
    (h : containsSub "_ispu" name = true) :
    data_type_string name decl = "int8"
    ∧ reshape_width name s_dim = 64
    ∧ (sensor_scaled name s_dim sens decl false data).dtype = OutDType.npByte
    ∧ (sensor_scaled name s_dim sens decl false data).values
        = (data.toChunks 64).map (fun r => r.map (fun v => ((int8_mul v sens : ℤ) : ℚ)))
    ∧ OutDType.npByte ≠ OutDType.npFloat32 := by
  simp [data_type_string, reshape_width, sensor_scaled, h]

/-- C10 witness: the ISPU decode contract at a concrete component name. -/
theorem c10_ispu_witness :
    containsSub "_ispu" "snsr_ispu" = true
    ∧ data_type_string "snsr_ispu" "float32" = "int8" := by
  exact ⟨by decide, (c10_ispu "snsr_ispu" "float32" 3 1 [1] (by decide)).1⟩

theorem repair_go_length (fp : ℚ) (prev : TS) (l : List Frame) :
    (repair_go fp prev l).length = l.length := by
  induction l generalizing prev with
  | nil => rfl
  | cons f rest ih => simp [repair_go, ih]

theorem repair_frames_length (check : Bool) (fp : ℚ) (l : List Frame) :
    (repair_frames check fp l).length = l.length := by
  cases l with
  | nil => rfl
  | cons f rest => simp only [repair_frames]; split <;> simp [repair_go_length]

theorem repair_go_succ (fp : ℚ) (l : List Frame) :
    ∀ (prev : TS) (i : ℕ) f g, (repair_go fp prev l)[i]? = some f → l[i + 1]? = some g →
      (repair_go fp prev l)[i + 1]? = some (repair_step fp f.ts g) := by
  induction l with
  | nil => intro prev i f g h; simp [repair_go] at h
  | cons x rest ih =>
    intro prev i f g hf hg
    cases i with
    | zero =>
      simp only [repair_go, List.getElem?_cons_zero, Option.some.injEq] at hf
      simp only [List.getElem?_cons_succ] at hg
      cases rest with
      | nil => simp at hg
      | cons y t =>
        simp only [List.getElem?_cons_zero, Option.some.injEq] at hg
        simp [repair_go, hf, hg]
    | succ j =>
      simp only [repair_go, List.getElem?_cons_succ] at hf hg ⊢
      exact ih _ j f g hf hg

/-- C6.  With the repair disabled no frame changes.  With it enabled, for
every frame index above 0 whose timestamp delta against the previously
stored (possibly repaired) timestamp is below one tenth of the frame
period, above ten times it, or involves a NaN, the frame data is zeroed
and its timestamp becomes the previous timestamp plus the frame period;
frames with an in-range delta pass through, the frame count is preserved
(extraction continues), and the check is enabled exactly for sensors with
the debug flag on whose name has no MLC or ISPU marker. -/
theorem c6_repair (fp : ℚ) (frames : List Frame) :
    repair_frames false fp frames = frames
    ∧ (repair_frames true fp frames).length = frames.length
    ∧ (∀ p : PDParams, p.c_type = .sensor →
        containsSub "_mlc" p.sensor_name = false →
        containsSub "_ispu" p.sensor_name = false →
        check_timestamps_of p = p.checkTimestampsFlag)
    ∧ (∀ a b : ℚ, bad_delta fp (some a) (some b)
        = (decide (|b - a| < 1/10 * fp) || decide (|b - a| > 10 * fp)))
    ∧ (∀ t, bad_delta fp none t = true)
    ∧ (∀ t, bad_delta fp t none = true)
    ∧ ∀ (i : ℕ) f g, (repair_frames true fp frames)[i]? = some f →
        frames[i + 1]? = some g →
        ((bad_delta fp f.ts g.ts = true →
          (repair_frames true fp frames)[i + 1]? =
            some { data := g.data.map (fun _ => 0), ts := f.ts.map (fun x => x + fp) })
        ∧ (bad_delta fp f.ts g.ts = false →
          (repair_frames true fp frames)[i + 1]? = some g)) := by
  refine ⟨?_, repair_frames_length true fp frames, ?_, ?_, ?_, ?_, ?_⟩
  · cases frames <;> simp [repair_frames]
  · intro p hp h1 h2; simp [check_timestamps_of, hp, h1, h2]
  · intro a b; rfl
  · intro t; rfl
  · intro t; cases t <;> rfl
  · intro i f g hf hg
    have key : (repair_frames true fp frames)[i + 1]? = some (repair_step fp f.ts g) := by
      cases frames with
      | nil => simp at hg
      | cons x rest =>
        rw [show repair_frames true fp (x :: rest) = x :: repair_go fp x.ts rest from by
          simp [repair_frames]] at hf ⊢
        cases i with
        | zero =>
          simp only [List.getElem?_cons_zero, Option.some.injEq] at hf
          simp only [List.getElem?_cons_succ] at hg
          cases rest with
          | nil => simp at hg
          | cons y t =>
            simp only [List.getElem?_cons_zero, Option.some.injEq] at hg
            simp [repair_go, hf, hg]
        | succ j =>
          simp only [List.getElem?_cons_succ] at hf hg ⊢
          exact repair_go_succ fp rest x.ts j f g hf hg
    constructor
    · intro hbad; rw [key]; simp [repair_step, hbad]
    · intro hgood; rw [key]; simp [repair_step, hgood]

/-- C6 witness: a concrete frame pair with an out-of-range delta is zeroed
and retimed, and a concrete in-range pair is untouched. -/
theorem c6_repair_witness :
    (repair_frames true 1 [⟨[7], some 1⟩, ⟨[8], some 100⟩])[1]? =
      some ⟨[0], some 2⟩
    ∧ repair_frames false 1 [⟨[7], some 1⟩, ⟨[8], some 100⟩]
        = [⟨[7], some 1⟩, ⟨[8], some 100⟩] := by
  have h := c6_repair 1 [⟨[7], some 1⟩, ⟨[8], some 100⟩]
  have h2 := (h.2.2.2.2.2.2 0 ⟨[7], some 1⟩ ⟨[8], some 100⟩ (by rfl) (by rfl)).1
    (by with_unfolding_all decide)
  have e : (1 : ℚ) + 1 = 2 := by norm_num
  refine ⟨?_, h.1⟩
  simpa [e] using h2

theorem linspaceQ_length (a b : ℚ) (num : ℕ) : (linspaceQ a b num).length = num := by
  simp only [linspaceQ, List.length_map, List.length_range]

theorem linspaceTS_length (a b : TS) (num : ℕ) : (linspaceTS a b num).length = num := by
  cases a <;> cases b <;>
    simp only [linspaceTS, List.length_map, List.length_replicate, linspaceQ_length]

theorem frame_interval_times_length (fp : ℚ) (N : ℕ) (t0 t1 : TS) :
    (frame_interval_times fp N t0 t1).length = N := by
  simp only [frame_interval_times]; split <;> simp [linspaceTS_length]

theorem flatten_map_getElem {α β : Type} (f : α → List β) (N : ℕ) :
    ∀ (l : List α), (∀ a ∈ l, (f a).length = N) →
      ∀ (i k : ℕ), k < N → ∀ x, l[i]? = some x →
        ((l.map f).flatten)[i * N + k]? = (f x)[k]? := by
  intro l
  induction l with
  | nil => intro _ i k hk x hx; simp at hx
  | cons a rest ih =>
    intro hN i k hk x hx
    have hlen : (f a).length = N := hN a (List.mem_cons_self a rest)
    cases i with
    | zero =>
      simp only [List.getElem?_cons_zero, Option.some.injEq] at hx
      subst hx
      simp only [List.map_cons, List.flatten_cons, Nat.zero_mul, Nat.zero_add]
      rw [List.getElem?_append, if_pos (by omega)]
    | succ j =>
      simp only [List.getElem?_cons_succ] at hx
      simp only [List.map_cons, List.flatten_cons]
      have harith : (j + 1) * N + k = (f a).length + (j * N + k) := by rw [hlen]; ring
      rw [harith, List.getElem?_append_right (Nat.le_add_right _ _), Nat.add_sub_cancel_left]
      exact ih (fun y hy => hN y (List.mem_cons_of_mem _ hy)) j k hk x hx

theorem zip_tail_getElem {α : Type} :
    ∀ (l : List α) (i : ℕ) (a b : α), l[i]? = some a → l[i + 1]? = some b →
      (l.zip l.tail)[i]? = some (a, b) := by
  intro l
  induction l with
  | nil => intro i a b h; simp at h
  | cons x rest ih =>
    intro i a b ha hb
    cases rest with
    | nil =>
      simp only [List.getElem?_cons_succ] at hb
      simp at hb
    | cons y t =>
      cases i with
      | zero =>
        simp only [List.getElem?_cons_zero, Option.some.injEq] at ha
        simp only [List.getElem?_cons_succ, List.getElem?_cons_zero, Option.some.injEq] at hb
        subst ha; subst hb
        simp
      | succ j =>
        rw [List.getElem?_cons_succ] at ha hb
        simpa using ih j a b ha hb

/-- The interpolation interval chosen by lines 753-757 for one frame: the
nominal frame-period-wide interval ending at the later timestamp when the
observed gap is stretched beyond a third more than the period, else the
raw interval between the consecutive frame timestamps. -/
def adaptive_interval (fp t0 t1 : ℚ) : ℚ × ℚ :=
  if 0 < fp ∧ fp + fp * (33/100) < |t1 - t0| then (t1 - fp, t1) else (t0, t1)

theorem frame_interval_times_some (fp : ℚ) (N : ℕ) (t0 t1 : ℚ) :
    frame_interval_times fp N (some t0) (some t1) =
      (linspaceQ (adaptive_interval fp t0 t1).1 (adaptive_interval fp t0 t1).2 N).map some := by
  have habs : tsAbsSub (some t1) (some t0) = some |t1 - t0| := rfl
  have hsub : tsSubQ (some t1) fp = some (t1 - fp) := rfl
  rw [frame_interval_times, habs, hsub]
  by_cases h : 0 < fp ∧ fp + fp * (33/100) < |t1 - t0|
  · have hb : (decide (0 < fp) && tsGtQ (some |t1 - t0|) (fp + fp * (33/100))) = true := by
      simp [tsGtQ, h.1, h.2]
    rw [hb, if_pos rfl, adaptive_interval, if_pos h]
    rfl
  · have hb : (decide (0 < fp) && tsGtQ (some |t1 - t0|) (fp + fp * (33/100))) = false := by
      simp only [tsGtQ, Bool.and_eq_false_iff, decide_eq_false_iff_not]
      by_cases h1 : 0 < fp
      · right; intro h2; exact h ⟨h1, h2⟩
      · left; exact h1
    rw [hb, adaptive_interval, if_neg h]
    simp only [Bool.false_eq_true, if_false]
    rfl

/-- C5.  For samples_per_ts N above 1, the N per-sample times of frame ii
are the N evenly spaced points lo, lo + step, ... with step equal to
(hi - lo) / N over the half-open interval from lo to hi (the later
endpoint excluded), where the interval is the raw pair of consecutive
frame timestamps unless the frame period is positive and the observed gap
exceeds 1.33 times it, in which case it is the period-wide interval ending
at the later timestamp. -/
theorem c5_interp (fp : ℚ) (N : ℕ) (tss : List TS) (ii k : ℕ) (t0 t1 : ℚ)
    (h0 : tss[ii]? = some (some t0)) (h1 : tss[ii + 1]? = some (some t1)) (hk : k < N) :
    (samples_times_interp fp N tss)[ii * N + k]? =
      some (some ((adaptive_interval fp t0 t1).1 +
        k * (((adaptive_interval fp t0 t1).2 - (adaptive_interval fp t0 t1).1) / N)))
    ∧ ((adaptive_interval fp t0 t1).1 < (adaptive_interval fp t0 t1).2 →
        (adaptive_interval fp t0 t1).1 ≤ (adaptive_interval fp t0 t1).1 +
          k * (((adaptive_interval fp t0 t1).2 - (adaptive_interval fp t0 t1).1) / N)
        ∧ (adaptive_interval fp t0 t1).1 +
          k * (((adaptive_interval fp t0 t1).2 - (adaptive_interval fp t0 t1).1) / N)
            < (adaptive_interval fp t0 t1).2) := by
  constructor
  · have hz := zip_tail_getElem tss ii (some t0) (some t1) h0 h1
    have hflat := flatten_map_getElem (fun p : TS × TS => frame_interval_times fp N p.1 p.2) N
      (tss.zip tss.tail) (fun a _ => frame_interval_times_length fp N a.1 a.2)
      ii k hk (some t0, some t1) hz
    rw [samples_times_interp, hflat]
    dsimp only
    rw [frame_interval_times_some]
    simp [linspaceQ, List.getElem?_range hk]
  · intro hlt
    have hN : (0 : ℚ) < N := by exact_mod_cast Nat.pos_of_ne_zero (by omega)
    have hstep : 0 < ((adaptive_interval fp t0 t1).2 - (adaptive_interval fp t0 t1).1) / N :=
      div_pos (by linarith) hN
    constructor
    · have : 0 ≤ (k : ℚ) * (((adaptive_interval fp t0 t1).2 - (adaptive_interval fp t0 t1).1) / N) :=
        mul_nonneg (by positivity) hstep.le
      linarith
    · have hkN : (k : ℚ) < N := by exact_mod_cast hk
      have h2 := mul_lt_mul_of_pos_right hkN hstep
      have h3 : (N : ℚ) * (((adaptive_interval fp t0 t1).2 - (adaptive_interval fp t0 t1).1) / N)
          = (adaptive_interval fp t0 t1).2 - (adaptive_interval fp t0 t1).1 := by
        field_simp
      linarith [h2, h3.le]

/-- C5 witness: with frame period 1, samples_per_ts 4 and consecutive frame
timestamps 0 and 1, the third per-sample time of the first frame is 1/2,
evenly spaced inside the half-open unit interval. -/
theorem c5_interp_witness :
    (samples_times_interp 1 4 [some 0, some 1])[0 * 4 + 2]? = some (some (0 + 2 * ((1 - 0) / 4)))
    ∧ (0 : ℚ) ≤ 0 + 2 * ((1 - 0) / 4) ∧ (0 : ℚ) + 2 * ((1 - 0) / 4) < 1 := by
  have h := c5_interp 1 4 [some 0, some 1] 0 2 0 1 (by rfl) (by rfl) (by omega)
  have ha : adaptive_interval 1 0 1 = (0, 1) := by
    rw [adaptive_interval, if_neg]
    rintro ⟨-, hc⟩
    rw [show |(1 : ℚ) - 0| = 1 by norm_num] at hc
    norm_num at hc
  rw [ha] at h
  exact ⟨h.1, (h.2 (by norm_num)).1, (h.2 (by norm_num)).2⟩

theorem decode_frames_length (dts : String) (dfs tbs : ℤ) (num : ℕ) (rnd : List ℕ)
    (dt : List ℕ → TS) (dd : String → List ℕ → List ℚ) :
    (decode_frames dt dd dts dfs tbs num rnd).length = num := by
  simp [decode_frames]

theorem pd_frames_length (p : PDParams) (raw : List ℕ) (dfs tbs : ℤ) :
    (pd_frames p raw dfs tbs).length = raw.length / (dfs + tbs).toNat := by
  simp [pd_frames, repair_frames_length, decode_frames_length]

theorem getLastD_irrel {α : Type} (l : List α) (d1 d2 : α) (hl : l ≠ []) :
    l.getLastD d1 = l.getLastD d2 := by
  rw [List.getLastD_eq_getLast?, List.getLastD_eq_getLast?]
  obtain ⟨x, hx⟩ := List.getLast?_isSome.mpr hl |> Option.isSome_iff_exists.mp
  rw [hx]; rfl

/-- C7 counterexample.  With samples_per_ts 2, one frame with embedded
timestamp 2 and a fresh cursor, the call returns per-sample times 0 and 1
but stores 2 as the carried ioffset: the ioffset is not the final entry of
the returned timestamps array. -/
theorem c7_counterexample :
    (process_datalog pdB {} (mkFrame 2 5 6) 2 8 true 0 none).cs.ioffset = some (some 2)
    ∧ (process_datalog pdB {} (mkFrame 2 5 6) 2 8 true 0 none).times = [some 0, some 1]
    ∧ (process_datalog pdB {} (mkFrame 2 5 6) 2 8 true 0 none).cs.ioffset
        ≠ some ((process_datalog pdB {} (mkFrame 2 5 6) 2 8 true 0 none).times.getLastD none) := by
  refine ⟨?_, ?_, ?_⟩ <;> with_unfolding_all decide

/-- C7 amended.  After a decoding call on an embedded-timestamp buffer with
at least one frame, the carried ioffset equals the last decoded frame
timestamp (the final frame-end timestamp); for samples_per_ts of 1 this is
also the final entry of the (unfiltered) returned times, while for larger
samples_per_ts the returned per-sample times exclude the final frame
timestamp, which is kept only as the interpolation origin of the next
call. -/
theorem c7_amended (p : PDParams) (cs : CompStatus) (raw : List ℕ) (dfs tbs : ℤ)
    (raw_flag : Bool) (st : ℚ) (prev : Option TS)
    (htbs : tbs ≠ 0)
    (hnum : 0 < raw.length / (dfs + tbs).toNat)
    (hd : 0 < pd_data1D p dfs) :
    (process_datalog p cs raw dfs tbs raw_flag st prev).cs.ioffset
      = some (((pd_frames p raw dfs tbs).map Frame.ts).getLastD none) := by
  have hframes : (pd_frames p raw dfs tbs).map Frame.ts ≠ [] := by
    intro h
    have := congrArg List.length h
    simp [pd_frames_length] at this
    omega
  simp only [process_datalog, htbs, ne_eq, not_false_eq_true, if_true]
  have hfalse : ¬((pd_data1D p dfs).toNat * (raw.length / (dfs + tbs).toNat) = 0) := by
    have h1 : 0 < (pd_data1D p dfs).toNat := by omega
    exact Nat.mul_ne_zero (by omega) (by omega)
  rw [if_neg hfalse]
  by_cases hs : 1 < pd_spts p dfs
  · rw [if_pos hs]
    dsimp only
    congr 1
    split
    · cases prev with
      | some pt => rw [List.getLastD_cons]; exact getLastD_irrel _ _ _ hframes
      | none => rw [List.getLastD_cons]; exact getLastD_irrel _ _ _ hframes
    · rw [List.getLastD_cons]; exact getLastD_irrel _ _ _ hframes
  · rw [if_neg hs]
    dsimp only
    rw [if_pos]
    rw [List.length_map, pd_frames_length]
    exact hnum

/-- C7 witness: the amended ioffset contract at a concrete one-frame
buffer. -/
theorem c7_amended_witness :
    ((8 : ℤ) ≠ 0) ∧ 0 < (mkFrame 2 5 6).length / ((2 : ℤ) + 8).toNat
    ∧ 0 < pd_data1D pdB 2
    ∧ (process_datalog pdB {} (mkFrame 2 5 6) 2 8 true 5 none).cs.ioffset
        = some (((pd_frames pdB (mkFrame 2 5 6) 2 8).map Frame.ts).getLastD none) := by
  exact ⟨by decide, by decide, by decide,
    c7_amended pdB {} (mkFrame 2 5 6) 2 8 true 5 none (by decide) (by decide) (by decide)⟩

/-- C8.  For a sensor component on a known interface, an extraction whose
requested start_time lies strictly beyond the acquisition duration (the
last known timestamp derived from the recorded metadata) returns empty
sample and time arrays without touching the cursor and raises nothing. -/
theorem c8_empty (b : BatchEnv) (cs : CompStatus) (start_time end_time : ℚ)
    (raw_flag : Bool) (locFuel : ℕ)
    (hc : b.pd.c_type = .sensor)
    (hintf : b.interface = 0 ∨ b.interface = 1 ∨ b.interface = 2 ∨ b.interface = 3)
    (hdur : b.acquisition_duration < start_time) :
    get_data_and_timestamps_batch b cs start_time end_time raw_flag locFuel
      = .ok [] [] cs := by
  rw [get_data_and_timestamps_batch]
  rw [if_neg (by simp [hc])]
  have hdps : (if b.interface = 0 then some (b.sd_dps - data_protocol_size)
      else if b.interface = 1 then some b.usb_dps
      else if b.interface = 2 then some b.ble_dps
      else if b.interface = 3 then some b.serial_dps
      else none).isSome := by
    rcases hintf with h | h | h | h <;> simp [h]
  obtain ⟨dps, hdpseq⟩ := Option.isSome_iff_exists.mp hdps
  rw [hdpseq]
  dsimp only
  split
  · rfl
  · rw [if_pos hdur]

/-- C8 witness: on the concrete witness acquisition of duration 20, a
request starting at 21 returns empty arrays. -/
theorem c8_empty_witness :
    envA.pd.c_type = CType.sensor ∧ envA.interface = 1
    ∧ envA.acquisition_duration < 21
    ∧ get_data_and_timestamps_batch envA {} 21 (-1) true 8 = .ok [] [] {} := by
  refine ⟨rfl, rfl, by norm_num [envA], ?_⟩
  exact c8_empty envA {} 21 (-1) true 8 rfl (Or.inr (Or.inl rfl)) (by norm_num [envA])

/-- C2.  When the counter check runs with a recorded previous counter p
and the freshly decoded little-endian counter differs from p by anything
other than the transport payload size, the loop body raises the
DataCorruptedException unless this is packet 0 of a first-chunk (fresh)
cursor whose recorded counter is exactly 0, in which case the packet is
dropped (nothing is appended) and the loop continues with the next packet;
a raised corruption stops the whole packet loop, so the remainder of the
component extraction is abandoned. -/
theorem c2_counter_mismatch (env : ExtractEnv) (n : ℕ) (s : LoopState)
    (data_bytes counter_bytes : List ℕ) (p : ℤ)
    (hskip : s.skip_counter_check = false)
    (hprev : s.cs.prev_data_byte_counter = some p)
    (hmm : leU32 counter_bytes - p ≠ env.data_packet_size) :
    (counter_then_chest env n s data_bytes counter_bytes =
      if s.cs.is_first_chunk.getD true ∧ n = 0 ∧ p = 0 then StepRes.next s
      else StepRes.stop (.corrupted s.cs))
    ∧ ∀ (fuel n2 : ℕ) (s2 : LoopState), extract_step env n2 s2 = .stop (.corrupted s2.cs) →
        extract_loop env (fuel + 1) n2 s2 = .corrupted s2.cs := by
  constructor
  · rw [counter_then_chest, if_neg (by simp [hskip]), hprev]
    dsimp only
    rw [if_pos hmm]
  · intro fuel n2 s2 hstep
    rw [extract_loop, hstep]

/-- C2 witness: with payload size 20 and recorded counter 0, a decoded
counter of 1 on packet 0 of a fresh cursor is dropped and the loop
continues; the same mismatch on packet 1 raises the corruption error. -/
theorem c2_counter_mismatch_witness :
    (counter_then_chest envW 0 sW [] [1, 0, 0, 0] = StepRes.next sW)
    ∧ (counter_then_chest envW 1 sW [] [1, 0, 0, 0] = StepRes.stop (.corrupted sW.cs)) := by
  constructor
  · have h := (c2_counter_mismatch envW 0 sW [] [1, 0, 0, 0] 0 rfl rfl (by decide)).1
    rw [h, if_pos (by exact ⟨rfl, rfl, rfl⟩)]
  · have h := (c2_counter_mismatch envW 1 sW [] [1, 0, 0, 0] 0 rfl rfl (by decide)).1
    rw [h, if_neg (by simp)]

set_option maxRecDepth 100000 in
/-- C1 evidence.  On the valid witness file with frame timestamps 1..16
seconds, extracting [0, 1.2) and then [1.2, 1.5) on the same cursor yields
the pairs at times 1, 2 and then the pair at time 3, while a single fresh
extraction of [0, 1.5) yields only the pairs at times 1 and 2: the
two-call concatenation is not the single-call sequence (the resumed call
emits a frame entirely beyond its requested end bound). -/
theorem c1_evidence :
    (get_data_and_timestamps_batch envA {} 0 (6/5) true 4
      = .ok [[0, 1], [2, 3]] [some 1, some 2] csA1)
    ∧ (get_data_and_timestamps_batch envA csA1 (6/5) (3/2) true 4
      = .ok [[4, 5]] [some 3] csA2)
    ∧ (get_data_and_timestamps_batch envA {} 0 (3/2) true 4
      = .ok [[0, 1], [2, 3]] [some 1, some 2] csA1)
    ∧ (([some 1, some 2] ++ [some 3] : List TS) ≠ [some 1, some 2]) := by
  refine ⟨?_, ?_, ?_, by decide⟩ <;> with_unfolding_all decide

set_option maxRecDepth 100000 in
/-- C3 counterexample.  With one sample per embedded timestamp (frames at
1..16 seconds), a first-chunk extraction starting at time 5 returns a
window whose earliest timestamp is 6, strictly greater than the requested
start_time although the file holds data covering time 5 (frames at 5 and
6): the claimed earliest-timestamp guarantee fails for samples_per_ts 1. -/
theorem c3_counterexample :
    (get_data_and_timestamps_batch envA { is_first_chunk := some true } 5 (-1) true 8
      = .ok [[10, 11], [12, 13], [14, 15], [16, 17], [18, 19], [20, 21], [22, 23],
             [24, 25], [26, 27], [28, 29], [30, 31]]
          [some 6, some 7, some 8, some 9, some 10, some 11, some 12, some 13,
           some 14, some 15, some 16] csA3)
    ∧ ((5 : ℚ) < 6) := by
  exact ⟨by with_unfolding_all decide, by norm_num⟩

theorem frames_gt_nil (env : ExtractEnv) : frames_gt env [] :=
  ⟨[], rfl, by simp⟩

theorem slice_of_take (l : List ℕ) (d t : ℤ) (hd : 0 ≤ d) (ht : 0 ≤ t) :
    sliceL (l.take (d + t).toNat) d t = sliceL l d t := by
  have htn : (d + t).toNat = d.toNat + t.toNat := by omega
  rw [sliceL, sliceL, htn, List.drop_take]
  have : d.toNat + t.toNat - d.toNat = t.toNat := by omega
  rw [this, List.take_take]
  simp

theorem frames_gt_append (env : ExtractEnv) (l chest : List ℕ)
    (hd : 0 ≤ env.dataframe_byte_size) (ht : 0 ≤ env.timestamp_byte_size)
    (hl : frames_gt env l)
    (hlen : (env.dataframe_byte_size + env.timestamp_byte_size).toNat ≤ chest.length)
    (hgt : tsGtQ (env.decode_ts
        (sliceL chest env.dataframe_byte_size env.timestamp_byte_size)) env.start_time = true) :
    frames_gt env
      (l ++ chest.take (env.dataframe_byte_size + env.timestamp_byte_size).toNat) := by
  obtain ⟨fl, hfl, hall⟩ := hl
  refine ⟨fl ++ [chest.take (env.dataframe_byte_size + env.timestamp_byte_size).toNat],
    by simp [hfl], ?_⟩
  intro fr hfr
  rcases List.mem_append.mp hfr with h | h
  · exact hall fr h
  · rcases List.mem_singleton.mp h with rfl
    constructor
    · rw [List.length_take]; omega
    · rw [slice_of_take _ _ _ hd ht]
      exact hgt

theorem finish_end_rda (env : ExtractEnv) (lastL : ℤ) (n : ℕ) (s : WState) (ts : TS) :
    (finish_end env lastL n s ts).raw_data_array = s.raw_data_array := by
  rw [finish_end]

theorem while_chest_gt (env : ExtractEnv) (lastL : ℤ) (n : ℕ)
    (hd : 0 ≤ env.dataframe_byte_size) (ht : 0 ≤ env.timestamp_byte_size) :
    ∀ (fuel : ℕ) (w : WState), frames_gt env w.raw_data_array →
      frames_gt env (while_chest env lastL n fuel w).raw_data_array := by
  intro fuel
  induction fuel with
  | zero => intro w hw; exact hw
  | succ f ih =>
    intro w hw
    simp only [while_chest]
    split
    · rename_i hlen
      split
      · rename_i hgt
        have hw2 : frames_gt env (w.raw_data_array ++
            w.byte_chest.take (env.dataframe_byte_size + env.timestamp_byte_size).toNat) :=
          frames_gt_append env _ _ hd ht hw hlen hgt
        split
        · split
          · split
            · rw [finish_end_rda]; exact hw2
            · exact hw2
          · rw [finish_end_rda]; exact hw2
        · split
          · split
            · exact ih _ hw2
            · exact hw2
          · exact ih _ hw2
      · split <;> exact hw
    · exact hw

theorem chest_phase_gt (env : ExtractEnv) (n : ℕ) (s : LoopState) (data_bytes : List ℕ)
    (hd : 0 ≤ env.dataframe_byte_size) (ht : 0 ≤ env.timestamp_byte_size)
    (htbs : env.timestamp_byte_size ≠ 0)
    (hw : frames_gt env s.raw_data_array) :
    stepres_gt env (chest_phase env n s data_bytes) := by
  simp only [chest_phase]
  split
  · rename_i h0; exact absurd h0 htbs
  · have hww := while_chest_gt env
      ({ s with byte_chest := s.byte_chest ++ data_bytes } : LoopState).last_index n hd ht
      ((s.byte_chest ++ data_bytes).length + 1)
      { byte_chest := s.byte_chest ++ data_bytes, raw_data_array := s.raw_data_array,
        prev_timestamp := s.prev_timestamp, end_time := s.end_time, cs := s.cs,
        end_time_flag := false, extracted_timestamp := none } hw
    split
    · exact hww
    · split
      · exact hww
      · split
        · exact hww
        · exact hww

theorem counter_then_chest_gt (env : ExtractEnv) (n : ℕ) (s : LoopState)
    (data_bytes counter_bytes : List ℕ)
    (hd : 0 ≤ env.dataframe_byte_size) (ht : 0 ≤ env.timestamp_byte_size)
    (htbs : env.timestamp_byte_size ≠ 0)
    (hw : frames_gt env s.raw_data_array) :
    stepres_gt env (counter_then_chest env n s data_bytes counter_bytes) := by
  simp only [counter_then_chest]
  split
  · exact chest_phase_gt env n s data_bytes hd ht htbs hw
  · split
    · exact chest_phase_gt env n _ data_bytes hd ht htbs hw
    · split
      · split
        · exact hw
        · trivial
      · exact chest_phase_gt env n _ data_bytes hd ht htbs hw

theorem extract_step_gt (env : ExtractEnv) (n : ℕ) (s : LoopState)
    (hd : 0 ≤ env.dataframe_byte_size) (ht : 0 ≤ env.timestamp_byte_size)
    (htbs : env.timestamp_byte_size ≠ 0)
    (hw : frames_gt env s.raw_data_array) :
    stepres_gt env (extract_step env n s) := by
  simp only [extract_step]
  split
  · exact hw
  · split
    · split
      · split
        · exact frames_gt_nil env
        · exact counter_then_chest_gt env n _ _ _ hd ht htbs hw
      · split
        · exact frames_gt_nil env
        · exact counter_then_chest_gt env n _ _ _ hd ht htbs hw
    · split
      · exact frames_gt_nil env
      · exact counter_then_chest_gt env n _ _ _ hd ht htbs hw

theorem extract_loop_gt (env : ExtractEnv)
    (hd : 0 ≤ env.dataframe_byte_size) (ht : 0 ≤ env.timestamp_byte_size)
    (htbs : env.timestamp_byte_size ≠ 0) :
    ∀ (fuel n : ℕ) (s : LoopState), frames_gt env s.raw_data_array →
      ∀ (rda : List ℕ) (prev : Option TS) (cs2 : CompStatus),
        extract_loop env fuel n s = .ok rda prev cs2 → frames_gt env rda := by
  intro fuel
  induction fuel with
  | zero =>
    intro n s hw rda prev cs2 h
    rw [extract_loop] at h
    injection h with h1 h2 h3
    exact h1 ▸ hw
  | succ f ih =>
    intro n s hw rda prev cs2 h
    rw [extract_loop] at h
    have hstep := extract_step_gt env n s hd ht htbs hw
    cases hs : extract_step env n s with
    | next s2 =>
      rw [hs] at h
      rw [hs] at hstep
      exact ih (n + 1) s2 hstep rda prev cs2 h
    | stop out =>
      rw [hs] at h
      rw [hs] at hstep
      subst h
      exact hstep

theorem extract_data_gt (env : ExtractEnv)
    (hd : 0 ≤ env.dataframe_byte_size) (ht : 0 ≤ env.timestamp_byte_size)
    (htbs : env.timestamp_byte_size ≠ 0)
    (nof : ℤ) (cs : CompStatus) (rda : List ℕ) (prev : Option TS) (cs2 : CompStatus)
    (h : extract_data env nof cs = .ok rda prev cs2) : frames_gt env rda := by
  simp only [extract_data] at h
  exact extract_loop_gt env hd ht htbs (env.nof_data_packet + 1) 0 _
    (frames_gt_nil env) rda prev cs2 h

theorem locator_done_not_gt (env : ExtractEnv) :
    ∀ (fuel : ℕ) (nof : ℤ) (rda : List ℕ) (prev : Option TS) (cs : CompStatus)
      (rda2 : List ℕ) (prev2 : Option TS) (cs2 : CompStatus),
      locator_go env fuel nof rda prev cs = .done rda2 prev2 cs2 →
      optTsGt prev2 env.start_time = false := by
  intro fuel
  induction fuel with
  | zero =>
    intro nof rda prev cs rda2 prev2 cs2 h
    rw [locator_go] at h
    cases hB : optTsGt prev env.start_time with
    | true =>
      rw [if_pos hB] at h
      simp at h
    | false =>
      rw [if_neg (by rw [hB]; exact Bool.false_ne_true)] at h
      injection h with h1 h2 h3
      rw [← h2]
      exact hB
  | succ f ih =>
    intro nof rda prev cs rda2 prev2 cs2 h
    rw [locator_go] at h
    cases hB : optTsGt prev env.start_time with
    | true =>
      rw [if_pos hB] at h
      cases hx : extract_data env (nof - 1) cs with
      | corrupted cs3 =>
        rw [hx] at h
        simp at h
      | ok rda3 prev3 cs3 =>
        rw [hx] at h
        exact ih (nof - 1) rda3 prev3 cs3 rda2 prev2 cs2 h
    | false =>
      rw [if_neg (by rw [hB]; exact Bool.false_ne_true)] at h
      injection h with h1 h2 h3
      rw [← h2]
      exact hB

/-- C3 (amended).  The claimed guarantee — that the earliest returned
timestamp is ≤ start_time whenever data covering start_time exists — fails
(see the counterexample): the frame filter keeps only frames whose decoded
timestamp is strictly greater than start_time, so with one sample per
timestamp the window always starts strictly after start_time.  What the
look-back machinery actually ensures is: (i) every extraction result is a
concatenation of whole frames, each decoding to a timestamp strictly
greater than start_time, and (ii) the retry loop of lines 1166-1168 only
terminates normally when the look-back probe timestamp (prev_timestamp) no
longer exceeds start_time, the iteration decrementing nof_prev_timestamps
each round exactly as claimed. -/
theorem c3_amended (env : ExtractEnv)
    (hd : 0 ≤ env.dataframe_byte_size) (ht : 0 ≤ env.timestamp_byte_size)
    (htbs : env.timestamp_byte_size ≠ 0) :
    (∀ (nof : ℤ) (cs : CompStatus) (rda : List ℕ) (prev : Option TS) (cs2 : CompStatus),
        extract_data env nof cs = .ok rda prev cs2 → frames_gt env rda)
    ∧ (∀ (fuel : ℕ) (nof : ℤ) (rda : List ℕ) (prev : Option TS) (cs : CompStatus)
        (rda2 : List ℕ) (prev2 : Option TS) (cs2 : CompStatus),
        locator_go env fuel nof rda prev cs = .done rda2 prev2 cs2 →
        optTsGt prev2 env.start_time = false) :=
  ⟨fun nof cs rda prev cs2 h => extract_data_gt env hd ht htbs nof cs rda prev cs2 h,
   locator_done_not_gt env⟩

set_option maxRecDepth 100000 in
/-- Witness for c3_amended: on the concrete witness environment the
hypotheses hold and the full-file extraction output, which evaluates to
the sixteen-frame stream, is certified frame-aligned with every timestamp
strictly above the start time 0. -/
theorem c3_amended_witness :
    0 ≤ envW.dataframe_byte_size ∧ 0 ≤ envW.timestamp_byte_size ∧
      envW.timestamp_byte_size ≠ 0 ∧ frames_gt envW frameStreamA :=
  ⟨by decide, by decide, by decide,
    (c3_amended envW (by decide) (by decide) (by decide)).1 0 {} frameStreamA none
      { last_index := some 192, missing_bytes := some 0, saved_bytes := some 160,
        prev_data_byte_counter := some 140 }
      (by with_unfolding_all decide)⟩

theorem le_pyCeilDiv_mul (a b : ℤ) (hb : 0 < b) : a ≤ pyCeilDiv a b * b := by
  have h1 : Int.fdiv (-a) b = (-a) / b := Int.fdiv_eq_ediv (-a) hb.le
  have h2 := Int.ediv_mul_le (-a) hb.ne'
  simp only [pyCeilDiv, h1]
  rw [neg_mul]
  linarith

theorem pyCeilDiv_nonneg (a b : ℤ) (ha : 0 ≤ a) (hb : 0 < b) : 0 ≤ pyCeilDiv a b := by
  have h1 : Int.fdiv (-a) b = (-a) / b := Int.fdiv_eq_ediv (-a) hb.le
  have h2 : (-a) / b ≤ 0 / b := Int.ediv_le_ediv hb (by omega)
  simp only [pyCeilDiv, h1]
  simp at h2
  omega

theorem emod_sub_add (a b c : ℤ) (h : a % c = 0) : (a - b + b) % c = 0 := by
  have e : a - b + b = a := by ring
  rw [e]
  exact h

theorem aok_fields (c : ℤ) (cs' : CompStatus) (li m : ℤ)
    (hli : cs'.last_index = some li) (hm : cs'.missing_bytes = some m)
    (h : li % c = 0 ∨ (li + m) % c = 0) : AOK c cs' := by
  unfold AOK
  rw [hli, hm]
  simpa using h

theorem finish_end_cs_aok (env : ExtractEnv) (lastL : ℤ) (n : ℕ) (s : WState) (ts : TS)
    (hl : lastL % env.cmplt_pkt_size = 0) :
    AOK env.cmplt_pkt_size (finish_end env lastL n s ts).cs := by
  simp only [finish_end]
  split
  · exact aok_fields _ _ _ _ rfl rfl (Or.inr (emod_sub_add _ _ _ hl))
  · exact aok_fields _ _ _ _ rfl rfl
      (Or.inr (emod_sub_add _ _ _ (by rw [Int.add_mul_emod_self]; exact hl)))

theorem while_flag_cs (env : ExtractEnv) (lastL : ℤ) (n : ℕ) :
    ∀ (fuel : ℕ) (w : WState),
      (while_chest env lastL n fuel w).end_time_flag = false →
      (while_chest env lastL n fuel w).cs = w.cs := by
  intro fuel
  induction fuel with
  | zero => intro w _; rfl
  | succ f ih =>
    intro w
    simp only [while_chest]
    split
    · split
      · split
        · split
          · split
            · intro hf; simp [finish_end] at hf
            · intro hf; simp at hf
          · intro hf; simp [finish_end] at hf
        · split
          · split
            · exact ih _
            · intro hf; simp at hf
          · exact ih _
      · split <;> (intro _; rfl)
    · intro _; rfl

theorem while_cs_aok (env : ExtractEnv) (lastL : ℤ) (n : ℕ)
    (hl : lastL % env.cmplt_pkt_size = 0) :
    ∀ (fuel : ℕ) (w : WState), AOK env.cmplt_pkt_size w.cs →
      AOK env.cmplt_pkt_size (while_chest env lastL n fuel w).cs := by
  intro fuel
  induction fuel with
  | zero => intro w hA; exact hA
  | succ f ih =>
    intro w hA
    simp only [while_chest]
    split
    · split
      · split
        · split
          · split
            · exact finish_end_cs_aok env lastL n _ _ hl
            · exact hA
          · exact finish_end_cs_aok env lastL n _ _ hl
        · split
          · split
            · exact ih _ hA
            · exact hA
          · exact ih _ hA
      · split <;> exact hA
    · exact hA

theorem chest_phase_c4 (env : ExtractEnv) (n : ℕ) (s : LoopState) (data_bytes : List ℕ)
    (hA : s.cs.last_index.getD 0 % env.cmplt_pkt_size = 0)
    (hL : s.last_index % env.cmplt_pkt_size = 0)
    (hM : s.missing_bytes = 0) :
    stepres_c4 env (chest_phase env n s data_bytes) := by
  simp only [chest_phase]
  split
  · split
    · split
      · exact aok_fields _ _ _ _ rfl rfl (Or.inr (emod_sub_add _ _ _ hL))
      · exact aok_fields _ _ _ _ rfl rfl
          (Or.inr (emod_sub_add _ _ _ (by rw [Int.add_mul_emod_self]; exact hL)))
    · exact ⟨hA, hL, hM⟩
  · split
    · exact aok_fields _ _ _ _ rfl rfl
        (Or.inr (emod_sub_add _ _ _ (by rw [Int.add_mul_emod_self]; exact hL)))
    · split
      · exact aok_fields _ _ _ _ rfl rfl (Or.inr (emod_sub_add _ _ _ hL))
      · split
        · exact while_cs_aok env _ n hL _ _ (Or.inl hA)
        · rename_i hflag
          have hf : (while_chest env s.last_index n ((s.byte_chest ++ data_bytes).length + 1)
              { byte_chest := s.byte_chest ++ data_bytes, raw_data_array := s.raw_data_array,
                prev_timestamp := s.prev_timestamp, end_time := s.end_time, cs := s.cs,
                end_time_flag := false, extracted_timestamp := none }).end_time_flag = false := by
            simpa using hflag
          have hcs := while_flag_cs env _ _ _ _ hf
          refine ⟨?_, hL, hM⟩
          rw [hcs]
          exact hA

theorem counter_then_chest_c4 (env : ExtractEnv) (n : ℕ) (s : LoopState)
    (data_bytes counter_bytes : List ℕ)
    (hA : s.cs.last_index.getD 0 % env.cmplt_pkt_size = 0)
    (hL : s.last_index % env.cmplt_pkt_size = 0)
    (hM : s.missing_bytes = 0) :
    stepres_c4 env (counter_then_chest env n s data_bytes counter_bytes) := by
  simp only [counter_then_chest]
  split
  · exact chest_phase_c4 env n s data_bytes hA hL hM
  · split
    · exact chest_phase_c4 env n _ data_bytes hA hL hM
    · split
      · split
        · exact ⟨hA, hL, hM⟩
        · trivial
      · exact chest_phase_c4 env n _ data_bytes hA hL hM

theorem extract_step_c4 (env : ExtractEnv) (n : ℕ) (s : LoopState)
    (hinv : LINV0 env s) :
    stepres_c4 env (extract_step env n s) := by
  obtain ⟨hA, hL, hM⟩ := hinv
  simp only [extract_step]
  split
  · exact aok_fields _ _ _ _ rfl rfl
      (Or.inl (by rw [Int.add_mul_emod_self]; exact hL))
  · split
    · split
      · split
        · exact Or.inl hA
        · refine counter_then_chest_c4 env n _ _ _ hA ?_ rfl
          show (s.last_index + s.missing_bytes) % env.cmplt_pkt_size = 0
          rw [hM, add_zero]
          exact hL
      · split
        · exact Or.inl hA
        · refine counter_then_chest_c4 env n _ _ _ hA ?_ rfl
          show (s.last_index + s.missing_bytes) % env.cmplt_pkt_size = 0
          rw [hM, add_zero]
          exact hL
    · split
      · exact Or.inl hA
      · exact counter_then_chest_c4 env n _ _ _ hA hL hM

theorem extract_loop_c4 (env : ExtractEnv) :
    ∀ (fuel n : ℕ) (s : LoopState), LINV0 env s →
      ∀ (rda : List ℕ) (prev : Option TS) (cs2 : CompStatus),
        extract_loop env fuel n s = .ok rda prev cs2 → AOK env.cmplt_pkt_size cs2 := by
  intro fuel
  induction fuel with
  | zero =>
    intro n s hinv rda prev cs2 h
    rw [extract_loop] at h
    injection h with h1 h2 h3
    exact h3 ▸ Or.inl hinv.1
  | succ f ih =>
    intro n s hinv rda prev cs2 h
    rw [extract_loop] at h
    have hstep := extract_step_c4 env n s hinv
    cases hs : extract_step env n s with
    | next s2 =>
      rw [hs] at h
      rw [hs] at hstep
      exact ih (n + 1) s2 hstep rda prev cs2 h
    | stop out =>
      rw [hs] at h
      rw [hs] at hstep
      subst h
      exact hstep

theorem extract_step0_c4 (env : ExtractEnv) (s : LoopState)
    (hA : s.cs.last_index.getD 0 % env.cmplt_pkt_size = 0)
    (hB : (s.last_index + s.missing_bytes) % env.cmplt_pkt_size = 0)
    (hC : 0 ≤ s.missing_bytes)
    (hD : s.last_index + s.missing_bytes ≤ (env.file.length : ℤ))
    (hE : s.last_index = 0 → s.missing_bytes = 0) :
    stepres_c4 env (extract_step env 0 s) := by
  simp only [extract_step]
  split
  · rename_i hEOF
    have hM0 : s.missing_bytes = 0 := by omega
    have hL : s.last_index % env.cmplt_pkt_size = 0 := by
      have := hB
      rw [hM0, add_zero] at this
      exact this
    exact aok_fields _ _ _ _ rfl rfl
      (Or.inl (by rw [Int.add_mul_emod_self]; exact hL))
  · split
    · split
      · split
        · exact Or.inl hA
        · exact counter_then_chest_c4 env 0 _ _ _ hA hB rfl
      · split
        · exact Or.inl hA
        · exact counter_then_chest_c4 env 0 _ _ _ hA hB rfl
    · rename_i hnz
      have hlz : s.last_index = 0 := not_not.mp hnz
      have hM0 : s.missing_bytes = 0 := hE hlz
      have hL : s.last_index % env.cmplt_pkt_size = 0 := by
        rw [hlz]
        exact Int.zero_emod _
      split
      · exact Or.inl hA
      · exact counter_then_chest_c4 env 0 _ _ _ hA hL hM0

theorem extract_data_c4_lb (env : ExtractEnv) (F : ℕ) (pb : ℤ) (cs : CompStatus)
    (hc : 0 < env.cmplt_pkt_size)
    (hA : cs.last_index.getD 0 % env.cmplt_pkt_size = 0)
    (hfit : pyCeilDiv pb env.cmplt_pkt_size * env.cmplt_pkt_size ≤ (env.file.length : ℤ)) :
    ∀ (rda : List ℕ) (prev : Option TS) (cs2 : CompStatus),
      extract_loop env (F + 1) 0
        { last_index := pb,
          missing_bytes := pyCeilDiv pb env.cmplt_pkt_size * env.cmplt_pkt_size - pb,
          saved_bytes := cs.saved_bytes.getD 0, skip_counter_check := false,
          byte_chest := [], raw_data_array := [], prev_timestamp := none,
          end_time := env.end_time, cs := cs } = .ok rda prev cs2 →
      AOK env.cmplt_pkt_size cs2 := by
  intro rda prev cs2 h
  rw [extract_loop] at h
  have hBv : (pb + (pyCeilDiv pb env.cmplt_pkt_size * env.cmplt_pkt_size - pb)) %
      env.cmplt_pkt_size = 0 := by
    have e : pb + (pyCeilDiv pb env.cmplt_pkt_size * env.cmplt_pkt_size - pb) =
        pyCeilDiv pb env.cmplt_pkt_size * env.cmplt_pkt_size := by ring
    rw [e]
    exact Int.mul_emod_left _ _
  have hCv : 0 ≤ pyCeilDiv pb env.cmplt_pkt_size * env.cmplt_pkt_size - pb := by
    have := le_pyCeilDiv_mul pb env.cmplt_pkt_size hc
    omega
  have hDv : pb + (pyCeilDiv pb env.cmplt_pkt_size * env.cmplt_pkt_size - pb) ≤
      (env.file.length : ℤ) := by omega
  have hEv : pb = 0 →
      pyCeilDiv pb env.cmplt_pkt_size * env.cmplt_pkt_size - pb = 0 := by
    intro h0
    rw [h0]
    norm_num [pyCeilDiv, Int.zero_fdiv]
  have hstep := extract_step0_c4 env
    { last_index := pb,
      missing_bytes := pyCeilDiv pb env.cmplt_pkt_size * env.cmplt_pkt_size - pb,
      saved_bytes := cs.saved_bytes.getD 0, skip_counter_check := false,
      byte_chest := [], raw_data_array := [], prev_timestamp := none,
      end_time := env.end_time, cs := cs } hA hBv hCv hDv hEv
  cases hs : extract_step env 0
      { last_index := pb,
        missing_bytes := pyCeilDiv pb env.cmplt_pkt_size * env.cmplt_pkt_size - pb,
        saved_bytes := cs.saved_bytes.getD 0, skip_counter_check := false,
        byte_chest := [], raw_data_array := [], prev_timestamp := none,
        end_time := env.end_time, cs := cs } with
  | next s2 =>
    rw [hs] at h
    rw [hs] at hstep
    exact extract_loop_c4 env F 1 s2 hstep rda prev cs2 h
  | stop out =>
    rw [hs] at h
    rw [hs] at hstep
    subst h
    exact hstep

/-- C4 (amended).  The claim that last_index always lands on a
transport-packet boundary (or 0) fails: the cursor write of lines
1103-1112 deliberately stores boundary minus missing_bytes (see the
counterexample, where last_index is 38 with packets of 24 bytes).  What
the engine guarantees instead, for a call on a fresh cursor (recorded
last_index and missing_bytes absent or 0) whose look-back start region
fits in the file, is the disjunction: the returned cursor's last_index is
a multiple of the complete packet size, or last_index + missing_bytes
is. -/
theorem c4_amended (env : ExtractEnv) (nof : ℤ) (cs : CompStatus)
    (hc : 0 < env.cmplt_pkt_size)
    (hlast : cs.last_index.getD 0 = 0)
    (hmiss : cs.missing_bytes.getD 0 = 0)
    (hfit : pyCeilDiv
        (pyCeilDiv (nof * (env.dataframe_byte_size + env.timestamp_byte_size))
            env.data_packet_size * data_protocol_size
          + nof * (env.dataframe_byte_size + env.timestamp_byte_size))
        env.cmplt_pkt_size * env.cmplt_pkt_size ≤ (env.file.length : ℤ))
    (rda : List ℕ) (prev : Option TS) (cs2 : CompStatus)
    (h : extract_data env nof cs = .ok rda prev cs2) :
    AOK env.cmplt_pkt_size cs2 := by
  have hA : cs.last_index.getD 0 % env.cmplt_pkt_size = 0 := by
    rw [hlast]
    exact Int.zero_emod _
  simp only [extract_data] at h
  split at h
  · exact extract_data_c4_lb env env.nof_data_packet _ cs hc hA hfit rda prev cs2 h
  · refine extract_loop_c4 env (env.nof_data_packet + 1) 0 _ ⟨hA, ?_, ?_⟩ rda prev cs2 h
    · show cs.last_index.getD 0 % env.cmplt_pkt_size = 0
      exact hA
    · show cs.missing_bytes.getD 0 = 0
      exact hmiss

set_option maxRecDepth 100000 in
/-- Witness for c4_amended: the full-file witness run on a fresh cursor
satisfies every hypothesis and its returned cursor, with last_index 192
and missing_bytes 0 for 24-byte packets, is certified aligned. -/
theorem c4_amended_witness :
    0 < envW.cmplt_pkt_size ∧ (({} : CompStatus).last_index.getD 0 = 0) ∧
      AOK envW.cmplt_pkt_size
        { last_index := some 192, missing_bytes := some 0, saved_bytes := some 160,
          prev_data_byte_counter := some 140 } :=
  ⟨by decide, by decide,
    c4_amended envW 0 {} (by decide) (by decide) (by decide) (by decide)
      frameStreamA none
      { last_index := some 192, missing_bytes := some 0, saved_bytes := some 160,
        prev_data_byte_counter := some 140 }
      (by with_unfolding_all decide)⟩

set_option maxRecDepth 100000 in
/-- C4 counterexample.  After the resumed witness call the stored
last_index is 38, which is neither 0 nor a multiple of the complete
24-byte packet size; it is the packet boundary 48 minus the stored
missing_bytes 10, refuting the packet-boundary claim as stated. -/
theorem c4_counterexample :
    (get_data_and_timestamps_batch envA csA1 (6/5) (3/2) true 4 = .ok [[4, 5]] [some 3] csA2)
    ∧ csA2.last_index = some 38
    ∧ csA2.missing_bytes = some 10
    ∧ envA.usb_dps + data_protocol_size = 24
    ∧ (38 : ℤ) % 24 ≠ 0 ∧ (38 : ℤ) ≠ 0 ∧ (38 + 10 : ℤ) % 24 = 0 := by
  refine ⟨by with_unfolding_all decide, ?_, ?_, ?_, ?_, ?_, ?_⟩ <;> decide

end HSD
